import Mathlib

/-!
# Scene management layer of the path tracer: a shallow embedding

Embedding of `src/core/Scene.cpp` / `src/core/Scene.h` (namespace `GLSLPT`).

Conventions of the embedding

* `float` scalars are an arbitrary linearly ordered ring `α` (exact arithmetic; the reals are
  one instance, the integers another one on which everything evaluates).
* `int` values are mathematical integers (`Int`) with the C++ operators: `/` is `Int.tdiv`,
  `%` is `Int.tmod` (both truncate towards zero), `<<`, `>>`, `|`, `&` are the two's complement
  operations of `Int`. Container sizes (`size_t`) are `Nat`. Signed overflow has no defined
  behaviour: the texture copy, whose `width * height * 3` leaves the 32-bit range for a texture
  of a few gigabytes, returns `none` there (`Texture.Copyable`). The counts and widths of the
  geometry buffers leave the 32-bit range only when a buffer holds about `2 ^ 31` entries and
  are not bounded; for the index packing `packIndex_lt` shows that the packed value stays
  below `2 ^ 24` for texture widths up to 4096.
* `std::vector` is `List`. The owning pointers `hdrData`, `camera` and `sceneBvh` of the scene
  are `Option`; the pointers stored in `meshes` and `textures` are never null and are modelled
  by the objects they point to.
* Dereferencing a null pointer or indexing a vector out of range has no defined behaviour in the
  source; the embedding returns `none` there.
* Code that the sources call but do not contain (asset loaders, BVH construction, BVH
  translator) is collected in the record `Env` and taken as a parameter. Diagnostics written
  with `printf` are not part of the state.
-/

namespace GLSLPT

/-! ## Vectors, matrices, boxes -/

/-- Three-component vector `glm::vec3`. -/
structure Vec3 (α : Type) where
  x : α
  y : α
  z : α
deriving DecidableEq

/-- Four-component vector `glm::vec4`. -/
structure Vec4 (α : Type) where
  x : α
  y : α
  z : α
  w : α
deriving DecidableEq

/-- Column-major matrix `glm::mat4`: `matrix[c]` is column `c`, `matrix[c][r]` its row `r`. -/
structure Mat4 (α : Type) where
  c0 : Vec4 α
  c1 : Vec4 α
  c2 : Vec4 α
  c3 : Vec4 α
deriving DecidableEq

/-- Axis-aligned box `Bounds3D`. -/
structure Bounds3D (α : Type) where
  min : Vec3 α
  max : Vec3 α
deriving DecidableEq

namespace Vec3

variable {α : Type}

/-- Componentwise sum, `glm::vec3 + glm::vec3`. -/
def add [Add α] (a b : Vec3 α) : Vec3 α := ⟨a.x + b.x, a.y + b.y, a.z + b.z⟩

/-- Vector times scalar, `glm::vec3 * float`. -/
def scale [Mul α] (a : Vec3 α) (s : α) : Vec3 α := ⟨a.x * s, a.y * s, a.z * s⟩

/-- Componentwise minimum, `glm::min`. -/
def min [Min α] (a b : Vec3 α) : Vec3 α := ⟨Min.min a.x b.x, Min.min a.y b.y, Min.min a.z b.z⟩

/-- Componentwise maximum, `glm::max`. -/
def max [Max α] (a b : Vec3 α) : Vec3 α := ⟨Max.max a.x b.x, Max.max a.y b.y, Max.max a.z b.z⟩

end Vec3

section TLAS

variable {α : Type} [LinearOrderedRing α]

/-- Body of the loop of `Scene::CreateTLAS` (Scene.cpp lines 123-145): the world-space box of
one instance, from the object-space box `bbox` of its mesh and its transform `matrix`. -/
def instanceBounds (matrix : Mat4 α) (bbox : Bounds3D α) : Bounds3D α :=
  let minBound := bbox.min
  let maxBound := bbox.max
  let right : Vec3 α := ⟨matrix.c0.x, matrix.c0.y, matrix.c0.z⟩
  let up : Vec3 α := ⟨matrix.c1.x, matrix.c1.y, matrix.c1.z⟩
  let forward : Vec3 α := ⟨matrix.c2.x, matrix.c2.y, matrix.c2.z⟩
  let translation : Vec3 α := ⟨matrix.c3.x, matrix.c3.y, matrix.c3.z⟩
  let xa := right.scale minBound.x
  let xb := right.scale maxBound.x
  let ya := up.scale minBound.y
  let yb := up.scale maxBound.y
  let za := forward.scale minBound.z
  let zb := forward.scale maxBound.z
  { min := (((xa.min xb).add (ya.min yb)).add (za.min zb)).add translation
    max := (((xa.max xb).add (ya.max yb)).add (za.max zb)).add translation }

/-- The 8 corners of a box: every choice of `min` or `max` per coordinate. -/
def corners (b : Bounds3D α) : List (Vec3 α) :=
  [ ⟨b.min.x, b.min.y, b.min.z⟩, ⟨b.min.x, b.min.y, b.max.z⟩,
    ⟨b.min.x, b.max.y, b.min.z⟩, ⟨b.min.x, b.max.y, b.max.z⟩,
    ⟨b.max.x, b.min.y, b.min.z⟩, ⟨b.max.x, b.min.y, b.max.z⟩,
    ⟨b.max.x, b.max.y, b.min.z⟩, ⟨b.max.x, b.max.y, b.max.z⟩ ]

/-- Image of a point under the transform: `right*cx + up*cy + forward*cz + translation`. -/
def transformPoint (matrix : Mat4 α) (p : Vec3 α) : Vec3 α :=
  let right : Vec3 α := ⟨matrix.c0.x, matrix.c0.y, matrix.c0.z⟩
  let up : Vec3 α := ⟨matrix.c1.x, matrix.c1.y, matrix.c1.z⟩
  let forward : Vec3 α := ⟨matrix.c2.x, matrix.c2.y, matrix.c2.z⟩
  let translation : Vec3 α := ⟨matrix.c3.x, matrix.c3.y, matrix.c3.z⟩
  (((right.scale p.x).add (up.scale p.y)).add (forward.scale p.z)).add translation

/-- Smallest box enclosing the first point `p` and the points `ps`: componentwise minimum and
maximum over all of them. -/
def enclose (p : Vec3 α) (ps : List (Vec3 α)) : Bounds3D α :=
  { min := ps.foldl Vec3.min p
    max := ps.foldl Vec3.max p }

/-- Reference computation of the world box: transform all 8 corners and enclose them. -/
def cornerBounds (matrix : Mat4 α) (bbox : Bounds3D α) : Bounds3D α :=
  match (corners bbox).map (transformPoint matrix) with
  | [] => bbox
  | p :: ps => enclose p ps

end TLAS

/-! ## Data model -/

/-- Triple of packed vertex references of one triangle, `struct Indices` (Scene.h). -/
structure Indices where
  x : Int
  y : Int
  z : Int
deriving DecidableEq

/-- Modelled from the spec: `RadeonRays::Bvh` (bvh/Bvh.h is not among the sources). What the
scene reads from a built tree: `Bounds()`, the total box, and `GetIndices()`, the permuted
triangle-index array, whose length is `GetNumIndices()`. -/
structure Bvh (α : Type) where
  bounds : Bounds3D α
  indices : List Int
deriving DecidableEq

/-- Modelled from the spec: `Mesh` (Mesh.h is not among the sources): the load path, the
per-vertex attribute arrays (position + U, normal + V) and the bottom-level tree the mesh owns;
the tree object exists from construction on and `BuildBVH` rebuilds it. -/
structure Mesh (α : Type) where
  meshName : String
  verticesUVX : List (Vec4 α)
  normalsUVY : List (Vec4 α)
  bvh : Bvh α
deriving DecidableEq

/-- Modelled from the spec: `MeshInstance` (Mesh.h is not among the sources): a mesh referenced
by integer id, a world transform and a material reference. -/
structure MeshInstance (α : Type) where
  transform : Mat4 α
  meshID : Int
  materialID : Int
deriving DecidableEq

/-- Modelled from the spec: `Texture` (Texture.h is not among the sources): file name,
dimensions and the 8-bit RGB texel buffer. -/
structure Texture where
  name : String
  width : Int
  height : Int
  texData : List UInt8
deriving DecidableEq

/-- Environment image `HDRData` (parser/HDRLoader.h); a null array pointer is `none`. -/
structure HDRData (α : Type) where
  width : Int
  height : Int
  cols : Option (List α)
  marginalDistData : Option (List (α × α))
  conditionalDistData : Option (List (α × α))
deriving DecidableEq

/-- Modelled from the spec: `Camera` (Camera.h is not among the sources): position, look-at
target and field of view, the three arguments of its constructor. -/
structure Camera (α : Type) where
  pos : Vec3 α
  lookAt : Vec3 α
  fov : α
deriving DecidableEq

/-- Modelled from the spec: `RenderOptions` (Renderer.h is not among the sources); the only
option Scene.cpp touches is `useEnvMap`. -/
structure RenderOptions where
  useEnvMap : Bool
deriving DecidableEq

/-- State of a `Scene` object (Scene.h lines 55-88). `Material`, `Light` and the BVH translator
are value types that Scene.cpp only stores or hands on; they are type parameters. The thread
pool pointer, which Scene.cpp never uses, is left out. -/
structure Scene (α Material Light Translator : Type) where
  renderOptions : RenderOptions
  meshes : List (Mesh α)
  materials : List Material
  meshInstances : List (MeshInstance α)
  lights : List Light
  hdrData : Option (HDRData α)
  camera : Option (Camera α)
  vertIndices : List Indices
  verticesUVX : List (Vec4 α)
  normalsUVY : List (Vec4 α)
  transforms : List (Mat4 α)
  indicesTexWidth : Int
  triDataTexWidth : Int
  bvhTranslator : Translator
  textures : List Texture
  textureMapsArray : List UInt8
  texWidth : Int
  texHeight : Int
  sceneBounds : Bounds3D α
  instancesModified : Bool
  sceneBvh : Option (Bvh α)

/-- The collaborators Scene.cpp calls and the sources do not contain. -/
structure Env (α Translator : Type) where
  /-- Allocation `new Mesh` followed by `Mesh::LoadFromFile`: the loaded mesh, `none` when
  it returns false. -/
  LoadFromFile : String → Option (Mesh α)
  /-- Allocation `new Texture` followed by `Texture::LoadTexture`: the loaded texture, `none`
  when it returns false. -/
  LoadTexture : String → Option Texture
  /-- Function `HDRLoader::Load`: the loaded environment or null. -/
  Load : String → Option (HDRData α)
  /-- Method `Mesh::BuildBVH`: the bottom-level tree built over the mesh's own triangles. -/
  BuildBVH : Mesh α → Bvh α
  /-- Allocation `new RadeonRays::Bvh(10.0f, 64, false)`: a fresh, empty tree object. -/
  newBvh : Bvh α
  /-- Method `Bvh::Build(bounds, count)` on an existing tree object. -/
  Build : Bvh α → List (Bounds3D α) → Bvh α
  /-- Method `BvhTranslator::Process(sceneBvh, meshes, meshInstances)`. -/
  Process : Translator → Bvh α → List (Mesh α) → List (MeshInstance α) → Translator
  /-- Method `BvhTranslator::UpdateTLAS(sceneBvh, meshInstances)`. -/
  UpdateTLAS : Translator → Bvh α → List (MeshInstance α) → Translator

/-! ## Asset registration -/

section Registration

variable {α Material Light Translator : Type}

/-- The search loops of `AddMesh` and `AddTexture` (Scene.cpp lines 20-25, 46-51): the first
index, counted from `i`, of an entry whose name equals `filename`. -/
def findName {β : Type} (name : β → String) (filename : String) : List β → Nat → Option Nat
  | [], _ => none
  | m :: ms, i => if name m = filename then some i else findName name filename ms (i + 1)

/-- Method `Scene::AddCamera` (Scene.cpp lines 8-16). -/
def AddCamera (s : Scene α Material Light Translator) (pos lookAt : Vec3 α) (fov : α) :
    Scene α Material Light Translator :=
  { s with camera := some ⟨pos, lookAt, fov⟩ }

/-- Method `Scene::AddMesh` (Scene.cpp lines 18-42): the returned id and the scene afterwards. -/
def AddMesh (env : Env α Translator) (s : Scene α Material Light Translator)
    (filename : String) : Int × Scene α Material Light Translator :=
  match findName Mesh.meshName filename s.meshes 0 with
  | some i => ((i : Int), s)
  | none =>
    match env.LoadFromFile filename with
    | some mesh => ((s.meshes.length : Int), { s with meshes := s.meshes ++ [mesh] })
    | none => (-1, s)

/-- Method `Scene::AddTexture` (Scene.cpp lines 44-69). -/
def AddTexture (env : Env α Translator) (s : Scene α Material Light Translator)
    (filename : String) : Int × Scene α Material Light Translator :=
  match findName Texture.name filename s.textures 0 with
  | some i => ((i : Int), s)
  | none =>
    match env.LoadTexture filename with
    | some texture => ((s.textures.length : Int), { s with textures := s.textures ++ [texture] })
    | none => (-1, s)

/-- Method `Scene::AddMaterial` (Scene.cpp lines 71-76). -/
def AddMaterial (s : Scene α Material Light Translator) (material : Material) :
    Int × Scene α Material Light Translator :=
  ((s.materials.length : Int), { s with materials := s.materials ++ [material] })

/-- Method `Scene::AddHDR` (Scene.cpp lines 78-96): the old environment is deleted first, then the
pointer is overwritten by the loader's result; `useEnvMap` is set only on success. -/
def AddHDR (env : Env α Translator) (s : Scene α Material Light Translator)
    (filename : String) : Scene α Material Light Translator :=
  let s1 := { s with hdrData := none }
  let s2 := { s1 with hdrData := env.Load filename }
  match s2.hdrData with
  | none => s2
  | some _ => { s2 with renderOptions := { s2.renderOptions with useEnvMap := true } }

/-- Method `Scene::AddMeshInstance` (Scene.cpp lines 98-103). -/
def AddMeshInstance (s : Scene α Material Light Translator) (meshInstance : MeshInstance α) :
    Int × Scene α Material Light Translator :=
  ((s.meshInstances.length : Int), { s with meshInstances := s.meshInstances ++ [meshInstance] })

/-- Method `Scene::AddLight` (Scene.cpp lines 105-110). -/
def AddLight (s : Scene α Material Light Translator) (light : Light) :
    Int × Scene α Material Light Translator :=
  ((s.lights.length : Int), { s with lights := s.lights ++ [light] })

/-- A sequence of `AddMesh` calls, one per path and in order; the returned ids are dropped. -/
def addMeshes (env : Env α Translator) :
    Scene α Material Light Translator → List String → Scene α Material Light Translator
  | s, [] => s
  | s, path :: rest => addMeshes env (AddMesh env s path).2 rest

end Registration

/-! ## Acceleration structures and buffer packing -/

section Build

variable {α Material Light Translator : Type} [LinearOrderedRing α]

/-- Element access `v[i]` with an `int` subscript; `none` outside the vector. -/
def atIndex {β : Type} (v : List β) (i : Int) : Option β :=
  if 0 ≤ i then v.get? i.toNat else none

/-- The loop of `Scene::CreateTLAS` (Scene.cpp lines 118-148): one world box per instance, in
the order of `meshInstances`. -/
def instanceBoundsList (meshes : List (Mesh α)) : List (MeshInstance α) →
    Option (List (Bounds3D α))
  | [] => some []
  | inst :: rest =>
    match atIndex meshes inst.meshID with
    | none => none
    | some mesh =>
      match instanceBoundsList meshes rest with
      | none => none
      | some bs => some (instanceBounds inst.transform mesh.bvh.bounds :: bs)

/-- Method `Scene::CreateTLAS` (Scene.cpp lines 112-151). -/
def CreateTLAS (env : Env α Translator) (s : Scene α Material Light Translator) :
    Option (Scene α Material Light Translator) :=
  match instanceBoundsList s.meshes s.meshInstances with
  | none => none
  | some bounds =>
    match s.sceneBvh with
    | none => none
    | some bvh =>
      let built := env.Build bvh bounds
      some { s with sceneBvh := some built, sceneBounds := built.bounds }

/-- Method `Scene::CreateBLAS` (Scene.cpp lines 153-161): every mesh rebuilds its own tree. -/
def CreateBLAS (env : Env α Translator) (s : Scene α Material Light Translator) :
    Scene α Material Light Translator :=
  { s with meshes := s.meshes.map fun m => { m with bvh := env.BuildBVH m } }

/-- The loops `transforms[i] = meshInstances[i].transform` (Scene.cpp lines 177-179 and
236-238), started at index `i`; writing past the end of `transforms` is undefined. -/
def copyTransforms : List (MeshInstance α) → Nat → List (Mat4 α) → Option (List (Mat4 α))
  | [], _, transforms => some transforms
  | inst :: rest, i, transforms =>
    if i < transforms.length then copyTransforms rest (i + 1) (transforms.set i inst.transform)
    else none

/-- Method `Scene::RebuildInstancesData` (Scene.cpp lines 163-182). -/
def RebuildInstancesData (env : Env α Translator) (s : Scene α Material Light Translator) :
    Option (Scene α Material Light Translator) :=
  let s1 := { s with sceneBvh := some env.newBvh }
  match CreateTLAS env s1 with
  | none => none
  | some s2 =>
    match s2.sceneBvh with
    | none => none
    | some bvh =>
      let s3 := { s2 with bvhTranslator := env.UpdateTLAS s2.bvhTranslator bvh s2.meshInstances }
      match copyTransforms s3.meshInstances 0 s3.transforms with
      | none => none
      | some transforms => some { s3 with transforms := transforms, instancesModified := true }

/-- Method `std::vector::resize(n)`: keep the first `n` elements, fill up with value-initialised ones. -/
def resize {β : Type} (v : List β) (n : Nat) (d : β) : List β :=
  v.take n ++ List.replicate (n - v.length) d

/-- The inner loop of the mesh copy (Scene.cpp lines 203-211): the three vertex references of
every triangle of the permuted index array, shifted by the running vertex count. -/
def meshIndices (triIndices : List Int) (verticesCnt : Int) : List Indices :=
  triIndices.map fun index =>
    { x := (index * 3 + 0) + verticesCnt
      y := (index * 3 + 1) + verticesCnt
      z := (index * 3 + 2) + verticesCnt }

/-- The mesh copy loop (Scene.cpp lines 197-217) over the remaining meshes, with the running
`verticesCnt`; everything is appended to the scene's buffers. -/
def copyMeshData : List (Mesh α) → Int → Scene α Material Light Translator →
    Scene α Material Light Translator
  | [], _, s => s
  | mesh :: rest, verticesCnt, s =>
    copyMeshData rest (verticesCnt + (mesh.verticesUVX.length : Int))
      { s with
        vertIndices := s.vertIndices ++ meshIndices mesh.bvh.indices verticesCnt
        verticesUVX := s.verticesUVX ++ mesh.verticesUVX
        normalsUVY := s.normalsUVY ++ mesh.normalsUVY }

/-- The assignment of Scene.cpp lines 229-231: a flat vertex index packed against the texture
width, `((v % triDataTexWidth) << 12) | (v / triDataTexWidth)`. The build only calls it with a
width of at least 1. -/
def packIndex (v triDataTexWidth : Int) : Int :=
  Int.lor ((Int.tmod v triDataTexWidth) <<< (12 : Int)) (Int.tdiv v triDataTexWidth)

/-- The body of the encoding loop (Scene.cpp lines 227-232) on one entry. -/
def packIndices (triDataTexWidth : Int) (t : Indices) : Indices :=
  { x := packIndex t.x triDataTexWidth
    y := packIndex t.y triDataTexWidth
    z := packIndex t.z triDataTexWidth }

/-- The width computation of Scene.cpp lines 220-221, `(int)(sqrt(count) + 1)`. The square root
of an integer below `2 ^ 52` taken in double precision and truncated by the cast is the integer
square root. -/
def texWidthFor (count : Nat) : Int :=
  ((Nat.sqrt count + 1 : Nat) : Int)

/-- The values of a 32-bit `int`. -/
def FitsInt32 (z : Int) : Prop :=
  -2147483648 ≤ z ∧ z ≤ 2147483647

instance (z : Int) : Decidable (FitsInt32 z) := by
  unfold FitsInt32
  infer_instance

/-- What Scene.cpp lines 243-246 need of one texture to stay within defined behaviour: `width`
and `height` are values of `int`, the products `width * height` and `width * height * 3` do
not overflow `int`, and the texel buffer holds at least `width * height * 3` bytes. -/
def Texture.Copyable (t : Texture) : Prop :=
  FitsInt32 t.width ∧ FitsInt32 t.height ∧ FitsInt32 (t.width * t.height) ∧
  FitsInt32 (t.width * t.height * 3) ∧ 0 ≤ t.width * t.height * 3 ∧
  (t.width * t.height * 3).toNat ≤ t.texData.length

instance (t : Texture) : Decidable t.Copyable := by
  unfold Texture.Copyable
  infer_instance

/-- The texture copy loop (Scene.cpp lines 241-247): the first `width * height * 3` texel bytes
of each texture are appended; overflow of the `int` products and reading past the end of a
texel buffer are undefined (`Texture.Copyable`). -/
def copyTextures : List Texture → Scene α Material Light Translator →
    Option (Scene α Material Light Translator)
  | [], s => some s
  | texture :: rest, s =>
    let texWidth := texture.width
    let texHeight := texture.height
    let texSize := texWidth * texHeight
    if texture.Copyable then
      copyTextures rest
        { s with
          texWidth := texWidth
          texHeight := texHeight
          textureMapsArray := s.textureMapsArray ++ texture.texData.take (texSize * 3).toNat }
    else none

/-- The packing stage of `Scene::CreateAccelerationStructures` (Scene.cpp lines 194-247). -/
def packBuffers (s : Scene α Material Light Translator) :
    Option (Scene α Material Light Translator) :=
  let s1 := copyMeshData s.meshes 0 s
  let indicesTexWidth := texWidthFor s1.vertIndices.length
  let triDataTexWidth := texWidthFor s1.verticesUVX.length
  let s2 := { s1 with
    indicesTexWidth := indicesTexWidth
    triDataTexWidth := triDataTexWidth
    vertIndices := resize s1.vertIndices (indicesTexWidth * indicesTexWidth).toNat ⟨0, 0, 0⟩
    verticesUVX := resize s1.verticesUVX (triDataTexWidth * triDataTexWidth).toNat ⟨0, 0, 0, 0⟩
    normalsUVY := resize s1.normalsUVY (triDataTexWidth * triDataTexWidth).toNat ⟨0, 0, 0, 0⟩ }
  let s3 := { s2 with vertIndices := s2.vertIndices.map (packIndices s2.triDataTexWidth) }
  let s4 := { s3 with
    transforms := resize s3.transforms s3.meshInstances.length ⟨⟨0, 0, 0, 0⟩, ⟨0, 0, 0, 0⟩,
      ⟨0, 0, 0, 0⟩, ⟨0, 0, 0, 0⟩⟩ }
  -- every entry the resize added is overwritten by the loop that follows
  match copyTransforms s4.meshInstances 0 s4.transforms with
  | none => none
  | some transforms => copyTextures s4.textures { s4 with transforms := transforms }

/-- Method `Scene::CreateAccelerationStructures` (Scene.cpp lines 184-248). -/
def CreateAccelerationStructures (env : Env α Translator)
    (s : Scene α Material Light Translator) : Option (Scene α Material Light Translator) :=
  let s1 := CreateBLAS env s
  match CreateTLAS env s1 with
  | none => none
  | some s2 =>
    match s2.sceneBvh with
    | none => none
    | some bvh =>
      packBuffers
        { s2 with bvhTranslator := env.Process s2.bvhTranslator bvh s2.meshes s2.meshInstances }

/-- Component `c` of an index triple: `x`, `y`, `z` for `c = 0, 1, 2`. -/
def Indices.component (t : Indices) (c : Nat) : Int :=
  match c with
  | 0 => t.x
  | 1 => t.y
  | _ => t.z

/-- Modelled from the spec: the consumer-side decoding of a packed index (shader code, not
among the sources): `row = value >> 12`, `col = value & 0xFFF`, `original = row + col * width`. -/
def unpackIndex (value width : Int) : Int :=
  let row := value >>> (12 : Int)
  let col := Int.land value 0xFFF
  row + col * width

/-- A transform whose basis columns are the identity and whose translation column is `t`; the
fourth row, which `CreateTLAS` never reads, is free. -/
def Mat4.IsTranslation (m : Mat4 α) (t : Vec3 α) : Prop :=
  (m.c0.x = 1 ∧ m.c0.y = 0 ∧ m.c0.z = 0) ∧
  (m.c1.x = 0 ∧ m.c1.y = 1 ∧ m.c1.z = 0) ∧
  (m.c2.x = 0 ∧ m.c2.y = 0 ∧ m.c2.z = 1) ∧
  (m.c3.x = t.x ∧ m.c3.y = t.y ∧ m.c3.z = t.z)

/-- The caller's edit between builds, `scene->meshInstances[k].transform = transform`: instance
`k` gets a new transform and nothing else changes. -/
def setTransform : List (MeshInstance α) → Nat → Mat4 α → List (MeshInstance α)
  | [], _, _ => []
  | inst :: rest, 0, transform => { inst with transform := transform } :: rest
  | inst :: rest, k + 1, transform => inst :: setTransform rest k transform

/-- The width in the specification's words: `ceil(sqrt(n))`, the smallest non-negative
integer `w` with `w * w ≥ n`. -/
def IsCeilSqrt (w : Int) (n : Nat) : Prop :=
  0 ≤ w ∧ (n : Int) ≤ w * w ∧ ∀ u : Int, 0 ≤ u → (n : Int) ≤ u * u → w ≤ u

/-- The smallest non-negative integer `w` with `w * w > n`, that is `floor(sqrt(n)) + 1`. -/
def IsLeastSquareAbove (w : Int) (n : Nat) : Prop :=
  0 ≤ w ∧ (n : Int) < w * w ∧ ∀ u : Int, 0 ≤ u → (n : Int) < u * u → w ≤ u

/-- What `CreateTLAS` and the texture copy need to stay within defined behaviour: the top-level
tree object exists, every instance refers to a mesh of the scene, and for every texture the
size `width * height * 3` fits an `int` and the texel buffer holds at least that many bytes. -/
def Scene.Ready (s : Scene α Material Light Translator) : Prop :=
  s.sceneBvh.isSome = true ∧
  (∀ inst ∈ s.meshInstances, 0 ≤ inst.meshID ∧ inst.meshID < (s.meshes.length : Int)) ∧
  (∀ t ∈ s.textures, t.Copyable)

/-- All index triples the mesh copy loop appends for the meshes `ms`, the running vertex count
starting at `verticesCnt`. -/
def collectedIndices : List (Mesh α) → Int → List Indices
  | [], _ => []
  | mesh :: rest, verticesCnt =>
    meshIndices mesh.bvh.indices verticesCnt ++
      collectedIndices rest (verticesCnt + (mesh.verticesUVX.length : Int))

/-- All position entries the mesh copy loop appends. -/
def collectedVertices : List (Mesh α) → List (Vec4 α)
  | [] => []
  | mesh :: rest => mesh.verticesUVX ++ collectedVertices rest

/-- All normal entries the mesh copy loop appends. -/
def collectedNormals : List (Mesh α) → List (Vec4 α)
  | [] => []
  | mesh :: rest => mesh.normalsUVY ++ collectedNormals rest

/-- All texel bytes the texture copy loop appends. -/
def collectedTexels : List Texture → List UInt8
  | [] => []
  | texture :: rest =>
    texture.texData.take (texture.width * texture.height * 3).toNat ++ collectedTexels rest

/-- The value of `texWidth` after the texture copy loop: the width of the last texture, the old
value when there is none. -/
def lastTexWidth : List Texture → Int → Int
  | [], w => w
  | texture :: rest, _ => lastTexWidth rest texture.width

/-- The value of `texHeight` after the texture copy loop. -/
def lastTexHeight : List Texture → Int → Int
  | [], h => h
  | texture :: rest, _ => lastTexHeight rest texture.height

/-- The per-vertex data model of the attribute arrays (position + U, normal + V): one entry
of each per vertex, so `normalsUVY` is as long as `verticesUVX`, in every mesh and in the
buffers of the scene. -/
def Scene.PerVertex (s : Scene α Material Light Translator) : Prop :=
  s.normalsUVY.length = s.verticesUVX.length ∧
  ∀ mesh ∈ s.meshes, mesh.normalsUVY.length = mesh.verticesUVX.length

instance (s : Scene α Material Light Translator) : Decidable s.PerVertex := by
  unfold Scene.PerVertex
  infer_instance

instance (s : Scene α Material Light Translator) : Decidable s.Ready := by
  unfold Scene.Ready
  infer_instance

end Build

/-! ## A small concrete scene

One mesh of two triangles, two instances of it (identity, and translated by `(5, 0, 0)`), one
texture of a single texel; scalars are integers. -/

/-- The identity transform moved by `t`. -/
def translationMatrix (t : Vec3 Int) : Mat4 Int :=
  ⟨⟨1, 0, 0, 0⟩, ⟨0, 1, 0, 0⟩, ⟨0, 0, 1, 0⟩, ⟨t.x, t.y, t.z, 1⟩⟩

/-- A quad of two triangles in the plane `z = 0`, six vertices, tree not built yet. -/
def quadMesh (name : String) : Mesh Int :=
  { meshName := name
    verticesUVX := [⟨0, 0, 0, 0⟩, ⟨1, 0, 0, 1⟩, ⟨1, 1, 0, 1⟩, ⟨0, 0, 0, 0⟩, ⟨1, 1, 0, 1⟩, ⟨0, 1, 0, 0⟩]
    normalsUVY := [⟨0, 0, 1, 0⟩, ⟨0, 0, 1, 0⟩, ⟨0, 0, 1, 1⟩, ⟨0, 0, 1, 0⟩, ⟨0, 0, 1, 1⟩, ⟨0, 0, 1, 1⟩]
    bvh := ⟨⟨⟨0, 0, 0⟩, ⟨0, 0, 0⟩⟩, []⟩ }

/-- Collaborators for the concrete scene: every non-empty path loads as the quad and every
non-empty texture name as one white texel, the empty path fails; a mesh tree lists the
triangles of the mesh in reverse order; a scene tree records the box of the first instance. -/
def demoEnv : Env Int Nat where
  LoadFromFile := fun filename => if filename = "" then none else some (quadMesh filename)
  LoadTexture := fun filename =>
    if filename = "" then none else some ⟨filename, 1, 1, [255, 255, 255]⟩
  Load := fun filename => if filename = "" then none else some ⟨1, 1, some [1, 1, 1], none, none⟩
  BuildBVH := fun mesh =>
    ⟨⟨⟨0, 0, 0⟩, ⟨1, 1, 0⟩⟩, (List.range (mesh.verticesUVX.length / 3)).reverse.map Int.ofNat⟩
  newBvh := ⟨⟨⟨0, 0, 0⟩, ⟨0, 0, 0⟩⟩, []⟩
  Build := fun bvh bounds => { bvh with bounds := bounds.headD bvh.bounds }
  Process := fun translator _ _ _ => translator + 1
  UpdateTLAS := fun translator _ _ => translator + 1

/-- A scene with nothing registered and empty buffers. -/
def emptyScene : Scene Int Nat Nat Nat where
  renderOptions := ⟨false⟩
  meshes := []
  materials := []
  meshInstances := []
  lights := []
  hdrData := none
  camera := none
  vertIndices := []
  verticesUVX := []
  normalsUVY := []
  transforms := []
  indicesTexWidth := 0
  triDataTexWidth := 0
  bvhTranslator := 0
  textures := []
  textureMapsArray := []
  texWidth := 0
  texHeight := 0
  sceneBounds := ⟨⟨0, 0, 0⟩, ⟨0, 0, 0⟩⟩
  instancesModified := false
  sceneBvh := some ⟨⟨⟨0, 0, 0⟩, ⟨0, 0, 0⟩⟩, []⟩

/-- The concrete scene before any build: one quad mesh, two instances, one texture. -/
def demoScene : Scene Int Nat Nat Nat :=
  { emptyScene with
    meshes := [quadMesh "quad.obj"]
    materials := [7]
    meshInstances := [⟨translationMatrix ⟨0, 0, 0⟩, 0, 0⟩, ⟨translationMatrix ⟨5, 0, 0⟩, 0, 0⟩]
    textures := [⟨"white.png", 1, 1, [255, 255, 255]⟩] }

end GLSLPT

/-! ## Properties -/

namespace GLSLPT

section BoundsProofs

variable {α : Type} [LinearOrderedRing α]

theorem sum_min3 (a1 a2 b1 b2 c1 c2 t : α) :
    min a1 a2 + min b1 b2 + min c1 c2 + t =
      min (min (min (min (min (min (min (a1 + b1 + c1 + t) (a1 + b1 + c2 + t))
        (a1 + b2 + c1 + t)) (a1 + b2 + c2 + t)) (a2 + b1 + c1 + t)) (a2 + b1 + c2 + t))
        (a2 + b2 + c1 + t)) (a2 + b2 + c2 + t) := by
  simp only [← min_add_add_left, ← min_add_add_right]
  ac_rfl

theorem sum_max3 (a1 a2 b1 b2 c1 c2 t : α) :
    max a1 a2 + max b1 b2 + max c1 c2 + t =
      max (max (max (max (max (max (max (a1 + b1 + c1 + t) (a1 + b1 + c2 + t))
        (a1 + b2 + c1 + t)) (a1 + b2 + c2 + t)) (a2 + b1 + c1 + t)) (a2 + b1 + c2 + t))
        (a2 + b2 + c1 + t)) (a2 + b2 + c2 + t) := by
  simp only [← max_add_add_left, ← max_add_add_right]
  ac_rfl

/-- C1: the world box `CreateTLAS` computes for an instance from the basis columns of its
transform equals, for every transform and every object-space box, the componentwise minimum
and maximum of the images of the 8 corners of the box. -/
theorem instanceBounds_eq_cornerBounds (matrix : Mat4 α) (bbox : Bounds3D α) :
    instanceBounds matrix bbox = cornerBounds matrix bbox := by
  simp only [instanceBounds, cornerBounds, corners, transformPoint, enclose, Vec3.add, Vec3.scale,
    Vec3.min, Vec3.max, List.map, List.foldl, sum_min3, sum_max3]

end BoundsProofs

/-! ### Index packing -/

theorem nat_pack_shiftRight (a b : Nat) (hb : b < 4096) : (a <<< 12 ||| b) >>> 12 = a := by
  rw [Nat.shiftLeft_eq, Nat.mul_comm, ← Nat.mul_add_lt_is_or (by simpa using hb),
    Nat.shiftRight_eq_div_pow]
  omega

theorem nat_pack_land (a b : Nat) (hb : b < 4096) : (a <<< 12 ||| b) &&& 0xFFF = b := by
  rw [Nat.shiftLeft_eq, Nat.mul_comm, ← Nat.mul_add_lt_is_or (by simpa using hb)]
  have h := Nat.and_pow_two_sub_one_eq_mod (2 ^ 12 * a + b) 12
  simp only [Nat.reducePow, Nat.add_one_sub_one] at h
  rw [h]
  omega

/-- On natural numbers the packed value is `(n % w) << 12 | (n / w)` computed in `Nat`. -/
theorem packIndex_natCast (n w : Nat) :
    packIndex (n : Int) (w : Int) = (((n % w) <<< 12 ||| (n / w) : Nat) : Int) := by
  unfold packIndex
  rw [← Int.ofNat_tmod, ← Int.ofNat_tdiv]
  have h : ((n % w : Nat) : Int) <<< (12 : Int) = (((n % w) <<< 12 : Nat) : Int) :=
    Int.shiftLeft_coe_nat (n % w) 12
  rw [h]
  rfl

theorem div_lt_4096 (n w : Nat) (hw : w ≤ 4096) (hn : n < w * w) : n / w < 4096 := by
  have h1 : n / w < w := Nat.div_lt_of_lt_mul hn
  omega

/-- The high bits of a packed value hold `n % w`, for widths up to 4096. -/
theorem packIndex_shiftRight (n w : Nat) (hw : w ≤ 4096) (hn : n < w * w) :
    packIndex (n : Int) (w : Int) >>> (12 : Int) = ((n % w : Nat) : Int) := by
  rw [packIndex_natCast]
  have h : ((((n % w) <<< 12 ||| (n / w) : Nat) : Int)) >>> (12 : Int)
      = ((((n % w) <<< 12 ||| (n / w)) >>> 12 : Nat) : Int) :=
    Int.shiftRight_coe_nat _ 12
  rw [h, nat_pack_shiftRight _ _ (div_lt_4096 n w hw hn)]

/-- The low 12 bits of a packed value hold `n / w`, for widths up to 4096. -/
theorem packIndex_land (n w : Nat) (hw : w ≤ 4096) (hn : n < w * w) :
    Int.land (packIndex (n : Int) (w : Int)) 0xFFF = ((n / w : Nat) : Int) := by
  rw [packIndex_natCast]
  have h : Int.land ((((n % w) <<< 12 ||| (n / w) : Nat) : Int)) 0xFFF
      = ((((n % w) <<< 12 ||| (n / w)) &&& 0xFFF : Nat) : Int) := rfl
  rw [h, nat_pack_land _ _ (div_lt_4096 n w hw hn)]

/-- Within the bounds of the encoding the packed value is a non-negative number below
`2 ^ 24`, so it fits an `int`. -/
theorem packIndex_lt (n w : Nat) (hw : w ≤ 4096) (hn : n < w * w) :
    0 ≤ packIndex (n : Int) (w : Int) ∧ packIndex (n : Int) (w : Int) < 2 ^ 24 := by
  rw [packIndex_natCast]
  refine ⟨Int.natCast_nonneg _, ?_⟩
  have hd := div_lt_4096 n w hw hn
  have hw0 : 0 < w := by
    rcases Nat.eq_zero_or_pos w with h | h
    · subst h; simp at hn
    · exact h
  have hm : n % w < w := Nat.mod_lt _ hw0
  have h : (n % w) <<< 12 ||| n / w = 2 ^ 12 * (n % w) + n / w := by
    rw [Nat.shiftLeft_eq, Nat.mul_comm, ← Nat.mul_add_lt_is_or (by simpa using hd)]
  rw [h]
  have h2 : 2 ^ 12 * (n % w) + n / w < 2 ^ 24 := by omega
  exact_mod_cast h2

/-- C5 (counterexample): at width 2 the index 1 (column 1 of row 0) is packed to 4096, whose
low 12 bits are 0, not `1 % 2 = 1`, and whose high bits are 1, not `1 / 2 = 0`. -/
theorem packIndex_layout_counterexample :
    (1 : Int) ≤ 2 ∧ (2 : Int) ≤ 4096 ∧ (0 : Int) ≤ 1 ∧ (1 : Int) < 2 * 2 ∧
      packIndex 1 2 = 4096 ∧
      Int.land (packIndex 1 2) 0xFFF ≠ Int.tmod 1 2 ∧
      packIndex 1 2 >>> (12 : Int) ≠ Int.tdiv 1 2 := by
  decide

/-- C5 (amended): for a width between 1 and 4096 and a flat vertex index below the square of
the width, the low 12 bits of the packed value hold `v / W` and the remaining high bits
(`value >> 12`) hold `v % W`, the index within one texture row. -/
theorem packIndex_layout (W v : Int) (hW1 : 1 ≤ W) (hW : W ≤ 4096) (hv0 : 0 ≤ v)
    (hv : v < W * W) :
    Int.land (packIndex v W) 0xFFF = Int.tdiv v W ∧
      packIndex v W >>> (12 : Int) = Int.tmod v W := by
  obtain ⟨w, rfl⟩ := Int.eq_ofNat_of_zero_le (le_trans (by decide) hW1)
  obtain ⟨n, rfl⟩ := Int.eq_ofNat_of_zero_le hv0
  have hw : w ≤ 4096 := by exact_mod_cast hW
  have hn : n < w * w := by exact_mod_cast hv
  rw [packIndex_land n w hw hn, packIndex_shiftRight n w hw hn]
  exact ⟨Int.ofNat_tdiv n w, Int.ofNat_tmod n w⟩

/-- Witness of the amended C5 at width 3 and index 7. -/
theorem packIndex_layout_witness :
    Int.land (packIndex 7 3) 0xFFF = Int.tdiv 7 3 ∧
      packIndex 7 3 >>> (12 : Int) = Int.tmod 7 3 :=
  packIndex_layout 3 7 (by decide) (by decide) (by decide) (by decide)

/-- C2: packing round trip. For a width between 1 and 4096 and a flat vertex index below the
square of the width, decoding the packed value (`row = value >> 12`, `col = value & 0xFFF`,
`row + col * width`) gives back the index. -/
theorem unpackIndex_packIndex (W v : Int) (hW1 : 1 ≤ W) (hW : W ≤ 4096) (hv0 : 0 ≤ v)
    (hv : v < W * W) : unpackIndex (packIndex v W) W = v := by
  obtain ⟨w, rfl⟩ := Int.eq_ofNat_of_zero_le (le_trans (by decide) hW1)
  obtain ⟨n, rfl⟩ := Int.eq_ofNat_of_zero_le hv0
  have hw : w ≤ 4096 := by exact_mod_cast hW
  have hn : n < w * w := by exact_mod_cast hv
  unfold unpackIndex
  simp only [packIndex_shiftRight n w hw hn, packIndex_land n w hw hn]
  have := Nat.mod_add_div n w
  push_cast
  have h2 : ((n % w : Nat) : Int) + ((n / w : Nat) : Int) * (w : Int) = (n : Int) := by
    rw [mul_comm]; exact_mod_cast this
  simpa using h2

/-- Witness of C2 at width 3 and index 7. -/
theorem unpackIndex_packIndex_witness : unpackIndex (packIndex 7 3) 3 = 7 :=
  unpackIndex_packIndex 3 7 (by decide) (by decide) (by decide) (by decide)

/-! ### Asset registration -/

section RegistrationProofs

variable {α Material Light Translator : Type}

theorem findName_eq_none {β : Type} (name : β → String) (filename : String) (l : List β)
    (i : Nat) : findName name filename l i = none ↔ ∀ m ∈ l, name m ≠ filename := by
  induction l generalizing i with
  | nil => simp [findName]
  | cons m ms ih =>
    by_cases h : name m = filename
    · simp [findName, h]
    · simp [findName, h, ih]

theorem findName_append_match {β : Type} (name : β → String) (filename : String) (l : List β)
    (m : β) (i : Nat) (hl : ∀ x ∈ l, name x ≠ filename) (hm : name m = filename) :
    findName name filename (l ++ [m]) i = some (i + l.length) := by
  induction l generalizing i with
  | nil => simp [findName, hm]
  | cons x xs ih =>
    have hx : name x ≠ filename := hl x (List.mem_cons_self _ _)
    have hxs : ∀ y ∈ xs, name y ≠ filename := fun y hy => hl y (List.mem_cons_of_mem _ hy)
    rw [List.cons_append, findName, if_neg hx, ih (i + 1) hxs, List.length_cons]
    exact congrArg some (by omega)

/-- C6: `AddMesh` is idempotent. With a loader that on success records the path as the name of
the mesh, a second `AddMesh` of the same path returns the value of the first and leaves the
mesh list (and the whole scene) as the first call left it. -/
theorem AddMesh_idempotent (env : Env α Translator) (s : Scene α Material Light Translator)
    (path : String) (hname : ∀ m, env.LoadFromFile path = some m → m.meshName = path) :
    (AddMesh env (AddMesh env s path).2 path).1 = (AddMesh env s path).1 ∧
      (AddMesh env (AddMesh env s path).2 path).2.meshes = (AddMesh env s path).2.meshes ∧
      (AddMesh env (AddMesh env s path).2 path).2 = (AddMesh env s path).2 := by
  cases hfind : findName Mesh.meshName path s.meshes 0 with
  | some i => simp [AddMesh, hfind]
  | none =>
    cases hload : env.LoadFromFile path with
    | none => simp [AddMesh, hfind, hload]
    | some mesh =>
      have hl := (findName_eq_none Mesh.meshName path s.meshes 0).mp hfind
      have hm := hname mesh hload
      have h2 := findName_append_match Mesh.meshName path s.meshes mesh 0 hl hm
      simp [AddMesh, hfind, hload, h2]

/-- Witness of C6: loading the quad twice into the empty scene. -/
theorem AddMesh_idempotent_witness :
    (AddMesh demoEnv (AddMesh demoEnv emptyScene "quad.obj").2 "quad.obj").1 =
        (AddMesh demoEnv emptyScene "quad.obj").1 ∧
      (AddMesh demoEnv (AddMesh demoEnv emptyScene "quad.obj").2 "quad.obj").2.meshes =
        (AddMesh demoEnv emptyScene "quad.obj").2.meshes ∧
      (AddMesh demoEnv (AddMesh demoEnv emptyScene "quad.obj").2 "quad.obj").2 =
        (AddMesh demoEnv emptyScene "quad.obj").2 :=
  AddMesh_idempotent demoEnv emptyScene "quad.obj" (by
    intro m hm
    simp only [demoEnv] at hm
    rw [if_neg (by decide)] at hm
    cases hm
    rfl)

/-- C7: `AddMesh` fails atomically. For a path that matches no loaded mesh name: when the load
fails the call returns -1 and the mesh list is unchanged; when the load succeeds the call
returns the previous length of the list, the list is the previous one with exactly the new
mesh appended, and the returned value is not -1. -/
theorem AddMesh_atomic (env : Env α Translator) (s : Scene α Material Light Translator)
    (path : String) (hnew : ∀ m ∈ s.meshes, m.meshName ≠ path) :
    (env.LoadFromFile path = none →
      (AddMesh env s path).1 = -1 ∧ (AddMesh env s path).2.meshes = s.meshes) ∧
    (∀ mesh, env.LoadFromFile path = some mesh →
      (AddMesh env s path).1 = (s.meshes.length : Int) ∧
      (AddMesh env s path).2.meshes = s.meshes ++ [mesh] ∧
      (AddMesh env s path).1 ≠ -1) := by
  have hfind := (findName_eq_none Mesh.meshName path s.meshes 0).mpr hnew
  constructor
  · intro hload
    simp [AddMesh, hfind, hload]
  · intro mesh hload
    have h0 : (0 : Int) ≤ (s.meshes.length : Int) := Int.natCast_nonneg _
    have h1 : AddMesh env s path =
        ((s.meshes.length : Int), { s with meshes := s.meshes ++ [mesh] }) := by
      simp only [AddMesh, hfind, hload]
    rw [h1]
    exact ⟨rfl, rfl, by omega⟩

/-- Witness of C7 on the concrete scene: the empty path fails to load, returns -1 and leaves
the list alone; a new path loads and is appended at index 1. -/
theorem AddMesh_atomic_witness :
    ((AddMesh demoEnv demoScene "").1 = -1 ∧
      (AddMesh demoEnv demoScene "").2.meshes = demoScene.meshes) ∧
    ((AddMesh demoEnv demoScene "cube.obj").1 = (demoScene.meshes.length : Int) ∧
      (AddMesh demoEnv demoScene "cube.obj").2.meshes =
        demoScene.meshes ++ [quadMesh "cube.obj"] ∧
      (AddMesh demoEnv demoScene "cube.obj").1 ≠ -1) :=
  ⟨(AddMesh_atomic demoEnv demoScene "" (by decide)).1 (by decide),
    (AddMesh_atomic demoEnv demoScene "cube.obj" (by decide)).2 (quadMesh "cube.obj")
      (by decide)⟩

/-- C10: `AddHDR` on a failed load. Whatever environment the scene held before, when the loader
returns null the scene holds none afterwards and `useEnvMap` keeps its value. -/
theorem AddHDR_load_failure (env : Env α Translator) (s : Scene α Material Light Translator)
    (filename : String) (hload : env.Load filename = none) :
    (AddHDR env s filename).hdrData = none ∧
      (AddHDR env s filename).renderOptions.useEnvMap = s.renderOptions.useEnvMap := by
  simp [AddHDR, hload]

/-- Witness of C10: a scene with a loaded environment and `useEnvMap` set, then a failed
reload. -/
theorem AddHDR_load_failure_witness :
    (AddHDR demoEnv (AddHDR demoEnv demoScene "sky.hdr") "").hdrData = none ∧
      (AddHDR demoEnv (AddHDR demoEnv demoScene "sky.hdr") "").renderOptions.useEnvMap =
        (AddHDR demoEnv demoScene "sky.hdr").renderOptions.useEnvMap :=
  AddHDR_load_failure demoEnv (AddHDR demoEnv demoScene "sky.hdr") "" (by decide)

end RegistrationProofs

/-! ### The build pipeline as record updates -/

section BuildProofs

variable {α Material Light Translator : Type}

theorem copyMeshData_eq (ms : List (Mesh α)) (verticesCnt : Int)
    (s : Scene α Material Light Translator) :
    copyMeshData ms verticesCnt s =
      { s with
        vertIndices := s.vertIndices ++ collectedIndices ms verticesCnt
        verticesUVX := s.verticesUVX ++ collectedVertices ms
        normalsUVY := s.normalsUVY ++ collectedNormals ms } := by
  induction ms generalizing verticesCnt s with
  | nil => simp [copyMeshData, collectedIndices, collectedVertices, collectedNormals]
  | cons mesh rest ih =>
    simp [copyMeshData, ih, collectedIndices, collectedVertices, collectedNormals,
      List.append_assoc]

theorem copyTextures_eq (ts : List Texture) (s : Scene α Material Light Translator)
    (h : ∀ t ∈ ts, t.Copyable) :
    copyTextures ts s =
      some { s with
        texWidth := lastTexWidth ts s.texWidth
        texHeight := lastTexHeight ts s.texHeight
        textureMapsArray := s.textureMapsArray ++ collectedTexels ts } := by
  induction ts generalizing s with
  | nil => simp [copyTextures, lastTexWidth, lastTexHeight, collectedTexels]
  | cons t rest ih =>
    have ht := h t (List.mem_cons_self _ _)
    have hr : ∀ u ∈ rest, u.Copyable := fun u hu => h u (List.mem_cons_of_mem _ hu)
    simp [copyTextures, ht, ih _ hr, lastTexWidth, lastTexHeight, collectedTexels,
      List.append_assoc]

theorem copyTransforms_eq (insts : List (MeshInstance α)) (i : Nat) (ts : List (Mat4 α))
    (h : i + insts.length ≤ ts.length) :
    copyTransforms insts i ts =
      some (ts.take i ++ insts.map (fun inst => inst.transform) ++
        ts.drop (i + insts.length)) := by
  induction insts generalizing i ts with
  | nil => simp [copyTransforms]
  | cons inst rest ih =>
    simp only [List.length_cons] at h
    have hi : i < ts.length := by omega
    have hlen : (ts.set i inst.transform).length = ts.length := List.length_set _ _ _
    rw [copyTransforms, if_pos hi, ih (i + 1) _ (by rw [hlen]; omega)]
    congr 1
    rw [List.set_eq_take_append_cons_drop, if_pos hi]
    have h1 : (ts.take i).length = i := by rw [List.length_take]; omega
    simp [List.take_append_eq_append_take, List.drop_append_eq_append_drop, h1,
      List.take_take, List.drop_drop]
    have h2 : i + 1 + rest.length - i = rest.length + 1 := by omega
    have h3 : List.drop (i + 1 + rest.length) (List.take i ts) = [] :=
      List.drop_eq_nil_of_le (by rw [h1]; omega)
    rw [h2, h3, List.nil_append, List.drop_succ_cons, List.drop_drop]
    congr 1
    omega

theorem length_collectedIndices (ms : List (Mesh α)) (verticesCnt : Int) :
    (collectedIndices ms verticesCnt).length = (ms.map fun m => m.bvh.indices.length).sum := by
  induction ms generalizing verticesCnt with
  | nil => rfl
  | cons mesh rest ih => simp [collectedIndices, meshIndices, ih]

theorem length_collectedVertices (ms : List (Mesh α)) :
    (collectedVertices ms).length = (ms.map fun m => m.verticesUVX.length).sum := by
  induction ms with
  | nil => rfl
  | cons mesh rest ih => simp [collectedVertices, ih]

theorem length_setTransform (l : List (MeshInstance α)) (k : Nat) (transform : Mat4 α) :
    (setTransform l k transform).length = l.length := by
  induction l generalizing k with
  | nil => rfl
  | cons inst rest ih => cases k <;> simp [setTransform, ih]

theorem meshID_of_mem_setTransform (l : List (MeshInstance α)) (k : Nat) (transform : Mat4 α)
    (inst : MeshInstance α) (h : inst ∈ setTransform l k transform) :
    ∃ old ∈ l, inst.meshID = old.meshID := by
  induction l generalizing k with
  | nil => simp [setTransform] at h
  | cons x rest ih =>
    cases k with
    | zero =>
      simp only [setTransform, List.mem_cons] at h
      rcases h with h | h
      · exact ⟨x, List.mem_cons_self _ _, by rw [h]⟩
      · exact ⟨inst, List.mem_cons_of_mem _ h, rfl⟩
    | succ k =>
      simp only [setTransform, List.mem_cons] at h
      rcases h with h | h
      · exact ⟨x, List.mem_cons_self _ _, by rw [h]⟩
      · obtain ⟨old, hold, ho⟩ := ih k h
        exact ⟨old, List.mem_cons_of_mem _ hold, ho⟩

theorem map_transform_setTransform (l : List (MeshInstance α)) (k : Nat) (transform : Mat4 α) :
    (setTransform l k transform).map (fun inst => inst.transform) =
      (l.map fun inst => inst.transform).set k transform := by
  induction l generalizing k with
  | nil => rfl
  | cons inst rest ih => cases k <;> simp [setTransform, ih]

theorem length_resize {β : Type} (v : List β) (n : Nat) (d : β) :
    (resize v n d).length = n := by
  simp only [resize, List.length_append, List.length_take, List.length_replicate]
  omega

theorem atIndex_of_lt {β : Type} (v : List β) (i : Int) (h0 : 0 ≤ i)
    (h1 : i < (v.length : Int)) : ∃ x, atIndex v i = some x := by
  obtain ⟨n, rfl⟩ := Int.eq_ofNat_of_zero_le h0
  have hn : n < v.length := by exact_mod_cast h1
  exact ⟨v[n], by simp [atIndex, List.getElem?_eq_getElem hn]⟩

end BuildProofs

section TlasProofs

variable {α Material Light Translator : Type} [LinearOrderedRing α]

theorem instanceBoundsList_of_valid (meshes : List (Mesh α)) (insts : List (MeshInstance α))
    (h : ∀ inst ∈ insts, 0 ≤ inst.meshID ∧ inst.meshID < (meshes.length : Int)) :
    ∃ bs, instanceBoundsList meshes insts = some bs := by
  induction insts with
  | nil => exact ⟨[], rfl⟩
  | cons inst rest ih =>
    obtain ⟨h0, h1⟩ := h inst (List.mem_cons_self _ _)
    obtain ⟨mesh, hm⟩ := atIndex_of_lt meshes inst.meshID h0 h1
    obtain ⟨bs, hbs⟩ := ih (fun u hu => h u (List.mem_cons_of_mem _ hu))
    exact ⟨instanceBounds inst.transform mesh.bvh.bounds :: bs,
      by simp [instanceBoundsList, hm, hbs]⟩

theorem CreateTLAS_eq (env : Env α Translator) (s : Scene α Material Light Translator)
    (bvh : Bvh α) (hb : s.sceneBvh = some bvh)
    (h : ∀ inst ∈ s.meshInstances, 0 ≤ inst.meshID ∧ inst.meshID < (s.meshes.length : Int)) :
    ∃ built : Bvh α,
      CreateTLAS env s = some { s with sceneBvh := some built, sceneBounds := built.bounds } := by
  obtain ⟨bs, hbs⟩ := instanceBoundsList_of_valid s.meshes s.meshInstances h
  exact ⟨env.Build bvh bs, by simp [CreateTLAS, hbs, hb]⟩

/-- The packing stage as one record update. -/
theorem packBuffers_eq (s : Scene α Material Light Translator)
    (h : ∀ t ∈ s.textures, t.Copyable) :
    packBuffers s =
      some { s with
        indicesTexWidth := texWidthFor (s.vertIndices ++ collectedIndices s.meshes 0).length
        triDataTexWidth := texWidthFor (s.verticesUVX ++ collectedVertices s.meshes).length
        vertIndices :=
          (resize (s.vertIndices ++ collectedIndices s.meshes 0)
            (texWidthFor (s.vertIndices ++ collectedIndices s.meshes 0).length *
              texWidthFor (s.vertIndices ++ collectedIndices s.meshes 0).length).toNat
            ⟨0, 0, 0⟩).map
            (packIndices (texWidthFor (s.verticesUVX ++ collectedVertices s.meshes).length))
        verticesUVX :=
          resize (s.verticesUVX ++ collectedVertices s.meshes)
            (texWidthFor (s.verticesUVX ++ collectedVertices s.meshes).length *
              texWidthFor (s.verticesUVX ++ collectedVertices s.meshes).length).toNat
            ⟨0, 0, 0, 0⟩
        normalsUVY :=
          resize (s.normalsUVY ++ collectedNormals s.meshes)
            (texWidthFor (s.verticesUVX ++ collectedVertices s.meshes).length *
              texWidthFor (s.verticesUVX ++ collectedVertices s.meshes).length).toNat
            ⟨0, 0, 0, 0⟩
        transforms := s.meshInstances.map (fun inst => inst.transform)
        texWidth := lastTexWidth s.textures s.texWidth
        texHeight := lastTexHeight s.textures s.texHeight
        textureMapsArray := s.textureMapsArray ++ collectedTexels s.textures } := by
  unfold packBuffers
  simp only [copyMeshData_eq]
  rw [copyTransforms_eq _ 0 _ (by simp [length_resize])]
  simp only [copyTextures_eq _ _ h]
  simp [length_resize]

/-- The full build is the packing stage run on the scene with rebuilt mesh trees, a rebuilt
top-level tree and a re-run translator. -/
theorem CreateAccelerationStructures_eq (env : Env α Translator)
    (s : Scene α Material Light Translator) (h : s.Ready) :
    ∃ (built : Bvh α) (translator : Translator),
      CreateAccelerationStructures env s =
        packBuffers { s with
          meshes := s.meshes.map fun m => { m with bvh := env.BuildBVH m }
          sceneBvh := some built
          sceneBounds := built.bounds
          bvhTranslator := translator } := by
  obtain ⟨hb, hi, _⟩ := h
  obtain ⟨bvh, hbvh⟩ := Option.isSome_iff_exists.mp hb
  obtain ⟨built, hbuilt⟩ := CreateTLAS_eq env (CreateBLAS env s) bvh hbvh
    (by simpa [CreateBLAS] using hi)
  refine ⟨built, env.Process s.bvhTranslator built
    (s.meshes.map fun m => { m with bvh := env.BuildBVH m }) s.meshInstances, ?_⟩
  simp only [CreateAccelerationStructures, hbuilt]
  rfl

theorem texWidthFor_mul_self_toNat (n : Nat) :
    (((texWidthFor n * texWidthFor n).toNat : Nat) : Int) = texWidthFor n * texWidthFor n :=
  Int.toNat_of_nonneg (mul_self_nonneg _)

theorem texWidthFor_isLeastSquareAbove (n : Nat) : IsLeastSquareAbove (texWidthFor n) n := by
  refine ⟨Int.natCast_nonneg _, ?_, ?_⟩
  · have h := Nat.lt_succ_sqrt' n
    have h2 : n < (Nat.sqrt n + 1) * (Nat.sqrt n + 1) := by
      simpa [Nat.succ_eq_add_one, sq] using h
    unfold texWidthFor
    exact_mod_cast h2
  · intro u hu hnu
    obtain ⟨k, rfl⟩ := Int.eq_ofNat_of_zero_le hu
    have h1 : n < k ^ 2 := by
      rw [sq]; exact_mod_cast hnu
    have h2 : Nat.sqrt n < k := Nat.sqrt_lt'.mpr h1
    unfold texWidthFor
    exact_mod_cast h2

theorem texWidthFor_isCeilSqrt (n : Nat) (hn : ∀ k : Nat, k * k ≠ n) :
    IsCeilSqrt (texWidthFor n) n := by
  obtain ⟨h0, h1, h2⟩ := texWidthFor_isLeastSquareAbove n
  refine ⟨h0, le_of_lt h1, ?_⟩
  intro u hu hnu
  refine h2 u hu (lt_of_le_of_ne hnu ?_)
  obtain ⟨k, rfl⟩ := Int.eq_ofNat_of_zero_le hu
  intro h
  exact hn k (by exact_mod_cast h.symm)

/-- C4 (counterexample): the scene without meshes collects `n = 0` index entries and `m = 0`
vertex entries; the build sets both widths to 1, which is not `ceil(sqrt(0)) = 0`. -/
theorem texWidth_ceil_sqrt_counterexample :
    (CreateAccelerationStructures demoEnv emptyScene).map
        (fun s' => (s'.indicesTexWidth, s'.triDataTexWidth)) = some (1, 1) ∧
      ¬ IsCeilSqrt 1 0 := by
  refine ⟨by decide, ?_⟩
  intro h
  have := h.2.2 0 (le_refl 0) (by decide)
  omega

/-- C4 (amended): for every scene within defined behaviour the build returns, and with `n` the
number of index entries and `m` the number of vertex entries collected before padding,
`indicesTexWidth` is the smallest non-negative integer `w` with `w * w > n` (that is
`floor(sqrt(n)) + 1`) and `triDataTexWidth` the smallest with `w * w > m`; they equal
`ceil(sqrt(n))` and `ceil(sqrt(m))` whenever `n`, respectively `m`, is not a perfect square. -/
theorem CreateAccelerationStructures_widths (env : Env α Translator)
    (s : Scene α Material Light Translator) (h : s.Ready) :
    ∃ s', CreateAccelerationStructures env s = some s' ∧
      IsLeastSquareAbove s'.indicesTexWidth
        (s.vertIndices.length + (s.meshes.map fun m => (env.BuildBVH m).indices.length).sum) ∧
      IsLeastSquareAbove s'.triDataTexWidth
        (s.verticesUVX.length + (s.meshes.map fun m => m.verticesUVX.length).sum) ∧
      ((∀ k : Nat, k * k ≠
          s.vertIndices.length + (s.meshes.map fun m => (env.BuildBVH m).indices.length).sum) →
        IsCeilSqrt s'.indicesTexWidth
          (s.vertIndices.length +
            (s.meshes.map fun m => (env.BuildBVH m).indices.length).sum)) ∧
      ((∀ k : Nat, k * k ≠
          s.verticesUVX.length + (s.meshes.map fun m => m.verticesUVX.length).sum) →
        IsCeilSqrt s'.triDataTexWidth
          (s.verticesUVX.length + (s.meshes.map fun m => m.verticesUVX.length).sum)) := by
  obtain ⟨built, translator, hcas⟩ := CreateAccelerationStructures_eq env s h
  rw [hcas, packBuffers_eq]
  · refine ⟨_, rfl, ?_⟩
    simp only [List.length_append, length_collectedIndices, length_collectedVertices,
      List.map_map, Function.comp_def]
    exact ⟨texWidthFor_isLeastSquareAbove _, texWidthFor_isLeastSquareAbove _,
      texWidthFor_isCeilSqrt _, texWidthFor_isCeilSqrt _⟩
  · exact h.2.2

/-- Witness of the amended C4 on the concrete scene (2 index entries, 6 vertex entries). -/
theorem CreateAccelerationStructures_widths_witness :
    ∃ s', CreateAccelerationStructures demoEnv demoScene = some s' ∧
      IsLeastSquareAbove s'.indicesTexWidth
        (demoScene.vertIndices.length +
          (demoScene.meshes.map fun m => (demoEnv.BuildBVH m).indices.length).sum) ∧
      IsLeastSquareAbove s'.triDataTexWidth
        (demoScene.verticesUVX.length +
          (demoScene.meshes.map fun m => m.verticesUVX.length).sum) ∧
      ((∀ k : Nat, k * k ≠
          demoScene.vertIndices.length +
            (demoScene.meshes.map fun m => (demoEnv.BuildBVH m).indices.length).sum) →
        IsCeilSqrt s'.indicesTexWidth
          (demoScene.vertIndices.length +
            (demoScene.meshes.map fun m => (demoEnv.BuildBVH m).indices.length).sum)) ∧
      ((∀ k : Nat, k * k ≠
          demoScene.verticesUVX.length +
            (demoScene.meshes.map fun m => m.verticesUVX.length).sum) →
        IsCeilSqrt s'.triDataTexWidth
          (demoScene.verticesUVX.length +
            (demoScene.meshes.map fun m => m.verticesUVX.length).sum)) :=
  CreateAccelerationStructures_widths demoEnv demoScene (by decide)

/-- The instance rebuild as one record update. -/
theorem RebuildInstancesData_eq (env : Env α Translator)
    (s : Scene α Material Light Translator)
    (hvalid : ∀ inst ∈ s.meshInstances,
      0 ≤ inst.meshID ∧ inst.meshID < (s.meshes.length : Int))
    (hlen : s.meshInstances.length ≤ s.transforms.length) :
    ∃ (built : Bvh α) (translator : Translator),
      RebuildInstancesData env s =
        some { s with
          sceneBvh := some built
          sceneBounds := built.bounds
          bvhTranslator := translator
          transforms := s.meshInstances.map (fun inst => inst.transform) ++
            s.transforms.drop s.meshInstances.length
          instancesModified := true } := by
  obtain ⟨built, hbuilt⟩ := CreateTLAS_eq env { s with sceneBvh := some env.newBvh } env.newBvh
    rfl hvalid
  refine ⟨built, env.UpdateTLAS s.bvhTranslator built s.meshInstances, ?_⟩
  simp only [RebuildInstancesData, hbuilt]
  rw [copyTransforms_eq _ 0 _ (by simpa using hlen)]
  simp

/-- What a full build leaves behind of the lists, the transforms and the top-level tree. -/
theorem CreateAccelerationStructures_lists (env : Env α Translator)
    (s : Scene α Material Light Translator) (h : s.Ready) :
    ∃ s0, CreateAccelerationStructures env s = some s0 ∧
      s0.meshes = (s.meshes.map fun m => { m with bvh := env.BuildBVH m }) ∧
      s0.meshInstances = s.meshInstances ∧ s0.textures = s.textures ∧
      s0.transforms = s.meshInstances.map (fun inst => inst.transform) ∧
      s0.sceneBvh.isSome = true := by
  obtain ⟨built, translator, hcas⟩ := CreateAccelerationStructures_eq env s h
  rw [hcas, packBuffers_eq]
  · exact ⟨_, rfl, rfl, rfl, rfl, rfl, rfl⟩
  · exact h.2.2

/-- C8: frame of `RebuildInstancesData`. From the state a full build leaves (where `transforms`
lists the instance transforms in order), after one instance `k` got a new transform, the
rebuild returns and leaves `vertIndices`, `verticesUVX`, `normalsUVY`, `textureMapsArray`,
`indicesTexWidth` and `triDataTexWidth` as they were, keeps `transforms[j]` for every `j ≠ k`,
sets `transforms[k]` to the new transform and raises `instancesModified`. -/
theorem RebuildInstancesData_frame (env : Env α Translator)
    (s : Scene α Material Light Translator) (h : s.Ready) (k : Nat) (transform : Mat4 α)
    (hk : k < s.meshInstances.length) :
    ∃ s0 s2, CreateAccelerationStructures env s = some s0 ∧
      s0.transforms = s0.meshInstances.map (fun inst => inst.transform) ∧
      RebuildInstancesData env
        { s0 with meshInstances := setTransform s0.meshInstances k transform } = some s2 ∧
      s2.vertIndices = s0.vertIndices ∧ s2.verticesUVX = s0.verticesUVX ∧
      s2.normalsUVY = s0.normalsUVY ∧ s2.textureMapsArray = s0.textureMapsArray ∧
      s2.indicesTexWidth = s0.indicesTexWidth ∧ s2.triDataTexWidth = s0.triDataTexWidth ∧
      s2.transforms.length = s0.transforms.length ∧
      (∀ j, j ≠ k → s2.transforms[j]? = s0.transforms[j]?) ∧
      s2.transforms[k]? = some transform ∧
      s2.instancesModified = true := by
  obtain ⟨s0, hcas, hmeshes, hinsts, _, htrans, _⟩ :=
    CreateAccelerationStructures_lists env s h
  have hvalid : ∀ inst ∈ setTransform s0.meshInstances k transform,
      0 ≤ inst.meshID ∧ inst.meshID < (s0.meshes.length : Int) := by
    intro inst hinst
    obtain ⟨old, hold, ho⟩ := meshID_of_mem_setTransform _ _ _ _ hinst
    rw [hinsts] at hold
    have := h.2.1 old hold
    rw [ho, hmeshes, List.length_map]
    exact this
  have hlen : (setTransform s0.meshInstances k transform).length ≤ s0.transforms.length := by
    rw [length_setTransform, htrans, hinsts, List.length_map]
  obtain ⟨built, translator, hre⟩ := RebuildInstancesData_eq env
    { s0 with meshInstances := setTransform s0.meshInstances k transform } hvalid hlen
  have hdrop : s0.transforms.drop (setTransform s0.meshInstances k transform).length = [] :=
    List.drop_eq_nil_of_le (by
      rw [length_setTransform, htrans, hinsts, List.length_map])
  have hk0 : k < s0.transforms.length := by
    rw [htrans, List.length_map]; exact hk
  refine ⟨s0, _, hcas, by rw [htrans, hinsts], hre, rfl, rfl, rfl, rfl, rfl, rfl, ?_, ?_, ?_,
    rfl⟩
  · dsimp only
    rw [hdrop, List.append_nil, List.length_map, length_setTransform, htrans, hinsts,
      List.length_map]
  · intro j hj
    dsimp only
    rw [hdrop, List.append_nil, map_transform_setTransform, hinsts, ← htrans,
      List.getElem?_set_ne (Ne.symm hj)]
  · dsimp only
    rw [hdrop, List.append_nil, map_transform_setTransform, hinsts, ← htrans]
    simp [hk0]

/-- Witness of C8 on the concrete scene: the second instance is moved to `(9, 0, 0)`. -/
theorem RebuildInstancesData_frame_witness :
    ∃ s0 s2, CreateAccelerationStructures demoEnv demoScene = some s0 ∧
      s0.transforms = s0.meshInstances.map (fun inst => inst.transform) ∧
      RebuildInstancesData demoEnv
        { s0 with
          meshInstances := setTransform s0.meshInstances 1 (translationMatrix ⟨9, 0, 0⟩) } =
        some s2 ∧
      s2.vertIndices = s0.vertIndices ∧ s2.verticesUVX = s0.verticesUVX ∧
      s2.normalsUVY = s0.normalsUVY ∧ s2.textureMapsArray = s0.textureMapsArray ∧
      s2.indicesTexWidth = s0.indicesTexWidth ∧ s2.triDataTexWidth = s0.triDataTexWidth ∧
      s2.transforms.length = s0.transforms.length ∧
      (∀ j, j ≠ 1 → s2.transforms[j]? = s0.transforms[j]?) ∧
      s2.transforms[1]? = some (translationMatrix ⟨9, 0, 0⟩) ∧
      s2.instancesModified = true :=
  RebuildInstancesData_frame demoEnv demoScene (by decide) 1 (translationMatrix ⟨9, 0, 0⟩)
    (by decide)

/-- The buffers a full build leaves, in terms of the state it started from. -/
theorem CreateAccelerationStructures_buffers (env : Env α Translator)
    (s : Scene α Material Light Translator) (h : s.Ready) :
    ∃ s', CreateAccelerationStructures env s = some s' ∧
      s'.indicesTexWidth = texWidthFor (s.vertIndices ++ collectedIndices
        (s.meshes.map fun m => { m with bvh := env.BuildBVH m }) 0).length ∧
      s'.triDataTexWidth = texWidthFor (s.verticesUVX ++ collectedVertices
        (s.meshes.map fun m => { m with bvh := env.BuildBVH m })).length ∧
      s'.vertIndices =
        (resize (s.vertIndices ++ collectedIndices
            (s.meshes.map fun m => { m with bvh := env.BuildBVH m }) 0)
          (s'.indicesTexWidth * s'.indicesTexWidth).toNat ⟨0, 0, 0⟩).map
          (packIndices s'.triDataTexWidth) ∧
      s'.verticesUVX =
        resize (s.verticesUVX ++ collectedVertices
            (s.meshes.map fun m => { m with bvh := env.BuildBVH m }))
          (s'.triDataTexWidth * s'.triDataTexWidth).toNat ⟨0, 0, 0, 0⟩ ∧
      s'.normalsUVY =
        resize (s.normalsUVY ++ collectedNormals
            (s.meshes.map fun m => { m with bvh := env.BuildBVH m }))
          (s'.triDataTexWidth * s'.triDataTexWidth).toNat ⟨0, 0, 0, 0⟩ ∧
      s'.textureMapsArray = s.textureMapsArray ++ collectedTexels s.textures ∧
      s'.texWidth = lastTexWidth s.textures s.texWidth ∧
      s'.texHeight = lastTexHeight s.textures s.texHeight := by
  obtain ⟨built, translator, hcas⟩ := CreateAccelerationStructures_eq env s h
  rw [hcas, packBuffers_eq]
  · exact ⟨_, rfl, rfl, rfl, rfl, rfl, rfl, rfl, rfl, rfl⟩
  · exact h.2.2

theorem lt_texWidthFor_mul_self_toNat (n : Nat) :
    n < (texWidthFor n * texWidthFor n).toNat := by
  have h := (texWidthFor_isLeastSquareAbove n).2.1
  rw [← texWidthFor_mul_self_toNat] at h
  exact_mod_cast h

/-- C9 (counterexample): on the concrete scene a second build in succession leaves widths 3
and 4, 9 index entries, 16 vertex entries and 6 texel bytes, where a single build from empty
buffers leaves widths 2 and 3, 4 index entries, 9 vertex entries and 3 texel bytes. -/
theorem CreateAccelerationStructures_twice_counterexample :
    ((CreateAccelerationStructures demoEnv demoScene).bind
        (CreateAccelerationStructures demoEnv)).map
        (fun s' => (s'.indicesTexWidth, s'.triDataTexWidth, s'.vertIndices.length,
          s'.verticesUVX.length, s'.normalsUVY.length, s'.textureMapsArray)) =
        some (3, 4, 9, 16, 16, [255, 255, 255, 255, 255, 255]) ∧
      (CreateAccelerationStructures demoEnv demoScene).map
        (fun s' => (s'.indicesTexWidth, s'.triDataTexWidth, s'.vertIndices.length,
          s'.verticesUVX.length, s'.normalsUVY.length, s'.textureMapsArray)) =
        some (2, 3, 4, 9, 9, [255, 255, 255]) := by
  have sqrt2 : Nat.sqrt 2 = 1 := by norm_num [Nat.sqrt]
  have sqrt6 : Nat.sqrt 6 = 2 := by norm_num [Nat.sqrt]
  have sqrt15 : Nat.sqrt 15 = 3 := by norm_num [Nat.sqrt]
  simp [CreateAccelerationStructures, CreateBLAS, CreateTLAS, demoEnv, demoScene, emptyScene,
    instanceBoundsList, atIndex, packBuffers, copyMeshData, copyTransforms, copyTextures,
    texWidthFor, sqrt2, sqrt6, sqrt15, quadMesh, meshIndices, resize, Texture.Copyable,
    FitsInt32]

/-- C9 (amended): a build that starts with `vertIndices`, `verticesUVX`, `normalsUVY` and
`textureMapsArray` empty leaves buffers and widths that depend on the mesh, instance and
texture lists only: two scenes that agree on these lists get the same `vertIndices`,
`verticesUVX`, `normalsUVY`, `textureMapsArray`, `transforms`, `indicesTexWidth` and
`triDataTexWidth`. The build never clears the buffers: a second build in succession returns
too, appends to what the first one left and leaves `vertIndices`, `verticesUVX` and
`normalsUVY` strictly longer; only `transforms` comes out the same. -/
theorem CreateAccelerationStructures_from_empty (env : Env α Translator)
    (s t : Scene α Material Light Translator) (hs : s.Ready) (ht : t.Ready)
    (hmeshes : s.meshes = t.meshes) (hinsts : s.meshInstances = t.meshInstances)
    (htextures : s.textures = t.textures)
    (hsEmpty : s.vertIndices = [] ∧ s.verticesUVX = [] ∧ s.normalsUVY = [] ∧
      s.textureMapsArray = [])
    (htEmpty : t.vertIndices = [] ∧ t.verticesUVX = [] ∧ t.normalsUVY = [] ∧
      t.textureMapsArray = []) :
    ∃ s1 t1 s2, CreateAccelerationStructures env s = some s1 ∧
      CreateAccelerationStructures env t = some t1 ∧
      s1.vertIndices = t1.vertIndices ∧ s1.verticesUVX = t1.verticesUVX ∧
      s1.normalsUVY = t1.normalsUVY ∧ s1.textureMapsArray = t1.textureMapsArray ∧
      s1.transforms = t1.transforms ∧
      s1.indicesTexWidth = t1.indicesTexWidth ∧ s1.triDataTexWidth = t1.triDataTexWidth ∧
      CreateAccelerationStructures env s1 = some s2 ∧
      s1.vertIndices.length < s2.vertIndices.length ∧
      s1.verticesUVX.length < s2.verticesUVX.length ∧
      s1.normalsUVY.length < s2.normalsUVY.length ∧
      s2.transforms = s1.transforms := by
  obtain ⟨s1, hs1, hmesh1, hinst1, htex1, htrans1, hbvh1⟩ :=
    CreateAccelerationStructures_lists env s hs
  obtain ⟨t1, ht1, _, _, _, htranst, _⟩ := CreateAccelerationStructures_lists env t ht
  obtain ⟨s1', hs1', hwi, hwt, hvi, hvx, hnx, htm, _, _⟩ :=
    CreateAccelerationStructures_buffers env s hs
  obtain ⟨t1', ht1', hwi', hwt', hvi', hvx', hnx', htm', _, _⟩ :=
    CreateAccelerationStructures_buffers env t ht
  obtain rfl : s1 = s1' := Option.some.inj (hs1.symm.trans hs1')
  obtain rfl : t1 = t1' := Option.some.inj (ht1.symm.trans ht1')
  have hready1 : s1.Ready := by
    refine ⟨hbvh1, ?_, ?_⟩
    · rw [hinst1, hmesh1, List.length_map]; exact hs.2.1
    · rw [htex1]; exact hs.2.2
  obtain ⟨s2, hs2, _, hinst2, _, htrans2, _⟩ :=
    CreateAccelerationStructures_lists env s1 hready1
  obtain ⟨s2', hs2', hwi2, hwt2, hvi2, hvx2, hnx2, _, _, _⟩ :=
    CreateAccelerationStructures_buffers env s1 hready1
  obtain rfl : s2 = s2' := Option.some.inj (hs2.symm.trans hs2')
  have hwiEq : s1.indicesTexWidth = t1.indicesTexWidth := by
    rw [hwi, hwi', hsEmpty.1, htEmpty.1, hmeshes]
  have hwtEq : s1.triDataTexWidth = t1.triDataTexWidth := by
    rw [hwt, hwt', hsEmpty.2.1, htEmpty.2.1, hmeshes]
  have hlenN : s1.normalsUVY.length = s1.verticesUVX.length := by
    rw [hnx, hvx, length_resize, length_resize]
  have hlenN2 : s2.normalsUVY.length = s2.verticesUVX.length := by
    rw [hnx2, hvx2, length_resize, length_resize]
  have hgrowV : s1.verticesUVX.length < s2.verticesUVX.length := by
    rw [hvx2, length_resize, hwt2]
    refine lt_of_le_of_lt ?_ (lt_texWidthFor_mul_self_toNat _)
    rw [List.length_append]
    exact Nat.le_add_right _ _
  refine ⟨s1, t1, s2, hs1, ht1, ?_, ?_, ?_, ?_, ?_, hwiEq, hwtEq, hs2, ?_, hgrowV, ?_, ?_⟩
  · rw [hvi, hvi', hwiEq, hwtEq, hsEmpty.1, htEmpty.1, hmeshes]
  · rw [hvx, hvx', hwtEq, hsEmpty.2.1, htEmpty.2.1, hmeshes]
  · rw [hnx, hnx', hwtEq, hsEmpty.2.2.1, htEmpty.2.2.1, hmeshes]
  · rw [htm, htm', hsEmpty.2.2.2, htEmpty.2.2.2, htextures]
  · rw [htrans1, htranst, hinsts]
  · rw [hvi2, List.length_map, length_resize, hwi2]
    refine lt_of_le_of_lt ?_ (lt_texWidthFor_mul_self_toNat _)
    rw [List.length_append]
    exact Nat.le_add_right _ _
  · rw [hlenN, hlenN2]; exact hgrowV
  · rw [htrans2, hinst1, htrans1]

/-- Witness of the amended C9: the concrete scene and a copy of it that differs in the lights,
the old widths and the old transforms. -/
theorem CreateAccelerationStructures_from_empty_witness :
    ∃ s1 t1 s2, CreateAccelerationStructures demoEnv demoScene = some s1 ∧
      CreateAccelerationStructures demoEnv
        { demoScene with
          lights := [3]
          indicesTexWidth := 5
          transforms := [translationMatrix ⟨1, 2, 3⟩] } = some t1 ∧
      s1.vertIndices = t1.vertIndices ∧ s1.verticesUVX = t1.verticesUVX ∧
      s1.normalsUVY = t1.normalsUVY ∧ s1.textureMapsArray = t1.textureMapsArray ∧
      s1.transforms = t1.transforms ∧
      s1.indicesTexWidth = t1.indicesTexWidth ∧ s1.triDataTexWidth = t1.triDataTexWidth ∧
      CreateAccelerationStructures demoEnv s1 = some s2 ∧
      s1.vertIndices.length < s2.vertIndices.length ∧
      s1.verticesUVX.length < s2.verticesUVX.length ∧
      s1.normalsUVY.length < s2.normalsUVY.length ∧
      s2.transforms = s1.transforms :=
  CreateAccelerationStructures_from_empty demoEnv demoScene
    { demoScene with
      lights := [3]
      indicesTexWidth := 5
      transforms := [translationMatrix ⟨1, 2, 3⟩] }
    (by decide) (by decide) rfl rfl rfl ⟨rfl, rfl, rfl, rfl⟩ ⟨rfl, rfl, rfl, rfl⟩

end TlasProofs


/-! ### Registration: names, de-duplication, appends -/

section RegistrationInvariants

variable {α Material Light Translator : Type}

/-- When some entry carries the name, the search returns the smallest index that does. -/
theorem findName_of_mem {β : Type} (name : β → String) (filename : String) (l : List β)
    (k : Nat) (h : ∃ m ∈ l, name m = filename) :
    ∃ i, findName name filename l k = some (k + i) ∧ i < l.length ∧
      l[i]?.map name = some filename ∧ ∀ j, j < i → l[j]?.map name ≠ some filename := by
  induction l generalizing k with
  | nil => simp at h
  | cons x xs ih =>
    by_cases hx : name x = filename
    · exact ⟨0, by simp [findName, hx], by simp, by simp [hx], by simp⟩
    · have hxs : ∃ m ∈ xs, name m = filename := by
        obtain ⟨m, hm, hmn⟩ := h
        rcases List.mem_cons.mp hm with rfl | hm'
        · exact absurd hmn hx
        · exact ⟨m, hm', hmn⟩
      obtain ⟨i, hfind, hlt, hget, hmin⟩ := ih (k + 1) hxs
      refine ⟨i + 1, ?_, by simpa using hlt, by simpa using hget, ?_⟩
      · rw [findName, if_neg hx, hfind]
        exact congrArg some (by omega)
      · intro j hj
        cases j with
        | zero => simpa using hx
        | succ j => simpa using hmin j (by omega)

theorem names_nodup_step (env : Env α Translator)
    (s : Scene α Material Light Translator) (path : String)
    (hload : ∀ m, env.LoadFromFile path = some m → m.meshName = path)
    (h : (s.meshes.map Mesh.meshName).Nodup) :
    ((AddMesh env s path).2.meshes.map Mesh.meshName).Nodup := by
  cases hfind : findName Mesh.meshName path s.meshes 0 with
  | some i => simpa [AddMesh, hfind] using h
  | none =>
    cases hl : env.LoadFromFile path with
    | none => simpa [AddMesh, hfind, hl] using h
    | some mesh =>
      have hnew := (findName_eq_none Mesh.meshName path s.meshes 0).mp hfind
      have hm := hload mesh hl
      simp only [AddMesh, hfind, hl, List.map_append, List.map_cons, List.map_nil]
      refine List.Nodup.append h (List.nodup_singleton _) ?_
      intro a ha hb
      rw [List.mem_singleton] at hb
      obtain ⟨m, hmem, rfl⟩ := List.mem_map.mp ha
      exact hnew m hmem (hb.trans hm)

/-- C11: no-duplicate invariant. With a loader that names a loaded mesh after its path, a call
of `AddMesh` keeps the mesh names pairwise distinct, and every scene reached from one without
meshes by a sequence of `AddMesh` calls has pairwise distinct mesh names. -/
theorem AddMesh_names_nodup (env : Env α Translator)
    (hload : ∀ p m, env.LoadFromFile p = some m → m.meshName = p) :
    (∀ (s : Scene α Material Light Translator) (path : String),
      (s.meshes.map Mesh.meshName).Nodup →
        ((AddMesh env s path).2.meshes.map Mesh.meshName).Nodup) ∧
    (∀ (s : Scene α Material Light Translator) (paths : List String), s.meshes = [] →
      ((addMeshes env s paths).meshes.map Mesh.meshName).Nodup) := by
  have hstep : ∀ (s : Scene α Material Light Translator) (path : String),
      (s.meshes.map Mesh.meshName).Nodup →
        ((AddMesh env s path).2.meshes.map Mesh.meshName).Nodup :=
    fun s path h => names_nodup_step env s path (hload path) h
  refine ⟨hstep, ?_⟩
  have hseq : ∀ (paths : List String) (s : Scene α Material Light Translator),
      (s.meshes.map Mesh.meshName).Nodup →
        ((addMeshes env s paths).meshes.map Mesh.meshName).Nodup := by
    intro paths
    induction paths with
    | nil => intro s h; exact h
    | cons path rest ih => intro s h; exact ih _ (hstep s path h)
  intro s paths hs
  exact hseq paths s (by rw [hs]; exact List.nodup_nil)

theorem demoEnv_names (p : String) (m : Mesh Int) (h : demoEnv.LoadFromFile p = some m) :
    m.meshName = p := by
  by_cases hp : p = ""
  · simp [demoEnv, hp] at h
  · simp only [demoEnv, if_neg hp, Option.some.injEq] at h
    rw [← h]
    rfl

/-- Witness of C11: one more mesh for the concrete scene, and three calls (one path twice)
from the empty scene. -/
theorem AddMesh_names_nodup_witness :
    (((AddMesh demoEnv demoScene "cube.obj").2.meshes.map Mesh.meshName).Nodup) ∧
      ((addMeshes demoEnv emptyScene ["a.obj", "b.obj", "a.obj"]).meshes.map
        Mesh.meshName).Nodup :=
  ⟨(AddMesh_names_nodup demoEnv demoEnv_names).1 demoScene "cube.obj" (by decide),
    (AddMesh_names_nodup demoEnv demoEnv_names).2 emptyScene ["a.obj", "b.obj", "a.obj"] rfl⟩

/-- C12: `AddTexture` de-duplicates by name. When some texture carries the name, the call
returns the smallest index of such a texture, does not depend on the loader (no load is
attempted) and leaves the list unchanged; when none does, a failed load returns -1 with the
list unchanged and a successful load returns the previous length with the new texture
appended. -/
theorem AddTexture_dedup (env : Env α Translator) (s : Scene α Material Light Translator)
    (filename : String) :
    ((∃ t ∈ s.textures, t.name = filename) →
      ∃ i : Nat, i < s.textures.length ∧
        s.textures[i]?.map Texture.name = some filename ∧
        (∀ j, j < i → s.textures[j]?.map Texture.name ≠ some filename) ∧
        (AddTexture env s filename).1 = (i : Int) ∧
        (AddTexture env s filename).2.textures = s.textures ∧
        ∀ env' : Env α Translator, AddTexture env' s filename = AddTexture env s filename) ∧
    ((∀ t ∈ s.textures, t.name ≠ filename) →
      (env.LoadTexture filename = none →
        (AddTexture env s filename).1 = -1 ∧
        (AddTexture env s filename).2.textures = s.textures) ∧
      (∀ texture, env.LoadTexture filename = some texture →
        (AddTexture env s filename).1 = (s.textures.length : Int) ∧
        (AddTexture env s filename).2.textures = s.textures ++ [texture])) := by
  constructor
  · intro h
    obtain ⟨i, hfind, hlt, hget, hmin⟩ := findName_of_mem Texture.name filename s.textures 0 h
    rw [Nat.zero_add] at hfind
    refine ⟨i, hlt, hget, hmin, ?_, ?_, ?_⟩
    · simp only [AddTexture, hfind]
    · simp only [AddTexture, hfind]
    · intro env'
      simp only [AddTexture, hfind]
  · intro h
    have hfind := (findName_eq_none Texture.name filename s.textures 0).mpr h
    constructor
    · intro hl
      simp only [AddTexture, hfind, hl]
      exact ⟨trivial, trivial⟩
    · intro texture hl
      simp only [AddTexture, hfind, hl]
      exact ⟨trivial, trivial⟩

/-- C12 on the concrete scene: the texture already loaded is found at index 0, the empty name
fails to load, a new name is appended at index 1. -/
theorem AddTexture_dedup_witness :
    ((AddTexture demoEnv demoScene "white.png").1 = 0 ∧
      (AddTexture demoEnv demoScene "white.png").2.textures = demoScene.textures) ∧
    ((AddTexture demoEnv demoScene "").1 = -1 ∧
      (AddTexture demoEnv demoScene "").2.textures = demoScene.textures) ∧
    ((AddTexture demoEnv demoScene "wood.png").1 = 1 ∧
      (AddTexture demoEnv demoScene "wood.png").2.textures =
        demoScene.textures ++ [⟨"wood.png", 1, 1, [255, 255, 255]⟩]) :=
  ⟨by decide,
    ((AddTexture_dedup demoEnv demoScene "").2 (by decide)).1 (by decide),
    ((AddTexture_dedup demoEnv demoScene "wood.png").2 (by decide)).2
      ⟨"wood.png", 1, 1, [255, 255, 255]⟩ (by decide)⟩

/-- C13: `AddMaterial`, `AddMeshInstance` and `AddLight` always append. Each returns the
previous length `n` of its list and changes nothing in the scene but that list, which becomes
the previous list followed by the argument: entry `n` is the argument and the entries below `n`
are the old ones. Adding one material twice returns `n` and `n + 1` and grows the list by
two. -/
theorem Add_appends (s : Scene α Material Light Translator) (material : Material)
    (meshInstance : MeshInstance α) (light : Light) :
    ((AddMaterial s material).1 = (s.materials.length : Int) ∧
      (AddMaterial s material).2 = { s with materials := s.materials ++ [material] } ∧
      (AddMaterial s material).2.materials[s.materials.length]? = some material ∧
      (∀ i, i < s.materials.length →
        (AddMaterial s material).2.materials[i]? = s.materials[i]?)) ∧
    ((AddMeshInstance s meshInstance).1 = (s.meshInstances.length : Int) ∧
      (AddMeshInstance s meshInstance).2 =
        { s with meshInstances := s.meshInstances ++ [meshInstance] } ∧
      (AddMeshInstance s meshInstance).2.meshInstances[s.meshInstances.length]? =
        some meshInstance ∧
      (∀ i, i < s.meshInstances.length →
        (AddMeshInstance s meshInstance).2.meshInstances[i]? = s.meshInstances[i]?)) ∧
    ((AddLight s light).1 = (s.lights.length : Int) ∧
      (AddLight s light).2 = { s with lights := s.lights ++ [light] } ∧
      (AddLight s light).2.lights[s.lights.length]? = some light ∧
      (∀ i, i < s.lights.length → (AddLight s light).2.lights[i]? = s.lights[i]?)) ∧
    ((AddMaterial (AddMaterial s material).2 material).1 = (s.materials.length : Int) + 1 ∧
      (AddMaterial (AddMaterial s material).2 material).2.materials =
        s.materials ++ [material, material] ∧
      (AddMaterial (AddMaterial s material).2 material).2.materials.length =
        s.materials.length + 2) := by
  refine ⟨⟨rfl, rfl, ?_, ?_⟩, ⟨rfl, rfl, ?_, ?_⟩, ⟨rfl, rfl, ?_, ?_⟩, ?_, ?_, ?_⟩
  · simp [AddMaterial]
  · intro i hi
    simp [AddMaterial, List.getElem?_append_left hi]
  · simp [AddMeshInstance]
  · intro i hi
    simp [AddMeshInstance, List.getElem?_append_left hi]
  · simp [AddLight]
  · intro i hi
    simp [AddLight, List.getElem?_append_left hi]
  · simp [AddMaterial]
  · simp [AddMaterial]
  · simp [AddMaterial]

end RegistrationInvariants

/-! ### Translated instances -/

section TranslationProofs

variable {α : Type} [LinearOrderedRing α]

theorem instanceBounds_of_isTranslation (m : Mat4 α) (t : Vec3 α) (bbox : Bounds3D α)
    (hB : bbox.min.x ≤ bbox.max.x ∧ bbox.min.y ≤ bbox.max.y ∧ bbox.min.z ≤ bbox.max.z)
    (hm : m.IsTranslation t) :
    instanceBounds m bbox = ⟨bbox.min.add t, bbox.max.add t⟩ := by
  obtain ⟨⟨h00, h01, h02⟩, ⟨h10, h11, h12⟩, ⟨h20, h21, h22⟩, ⟨h30, h31, h32⟩⟩ := hm
  obtain ⟨hx, hy, hz⟩ := hB
  simp only [instanceBounds, Vec3.add, Vec3.scale, Vec3.min, Vec3.max, h00, h01, h02, h10, h11,
    h12, h20, h21, h22, h30, h31, h32, one_mul, zero_mul, min_self, max_self, min_eq_left hx,
    min_eq_left hy, min_eq_left hz, max_eq_right hx, max_eq_right hy, max_eq_right hz,
    add_zero, zero_add]

/-- C14: translation-only instances. For a box with `min ≤ max` in every coordinate and a
transform with identity basis columns and translation `t`, the world box of `CreateTLAS` is
`(min + t, max + t)`; with translation zero it is the box itself, so the boxes of two instances
of one mesh, one not moved and one moved by `t`, differ by exactly `t`, also as the two entries
the loop of `CreateTLAS` computes for them. -/
theorem instanceBounds_translation (m m0 : Mat4 α) (t : Vec3 α) (bbox : Bounds3D α)
    (hB : bbox.min.x ≤ bbox.max.x ∧ bbox.min.y ≤ bbox.max.y ∧ bbox.min.z ≤ bbox.max.z)
    (hm : m.IsTranslation t) (hm0 : m0.IsTranslation ⟨0, 0, 0⟩) :
    instanceBounds m bbox = ⟨bbox.min.add t, bbox.max.add t⟩ ∧
      instanceBounds m0 bbox = bbox ∧
      instanceBounds m bbox =
        ⟨(instanceBounds m0 bbox).min.add t, (instanceBounds m0 bbox).max.add t⟩ ∧
      ∀ (meshes : List (Mesh α)) (mesh : Mesh α) (meshID materialID : Int),
        atIndex meshes meshID = some mesh → mesh.bvh.bounds = bbox →
        instanceBoundsList meshes [⟨m0, meshID, materialID⟩, ⟨m, meshID, materialID⟩] =
          some [bbox, ⟨bbox.min.add t, bbox.max.add t⟩] := by
  have h1 := instanceBounds_of_isTranslation m t bbox hB hm
  have h0 : instanceBounds m0 bbox = bbox := by
    rw [instanceBounds_of_isTranslation m0 ⟨0, 0, 0⟩ bbox hB hm0]
    simp [Vec3.add]
  refine ⟨h1, h0, by rw [h0, h1], ?_⟩
  intro meshes mesh meshID materialID hmesh hbox
  simp only [instanceBoundsList, hmesh, hbox, h0, h1]

/-- Witness of C14: the two instances of the concrete scene, the quad's box and the move by
`(5, 0, 0)`. -/
theorem instanceBounds_translation_witness :
    instanceBounds (translationMatrix ⟨5, 0, 0⟩) ⟨⟨0, 0, 0⟩, ⟨1, 1, 0⟩⟩ =
        ⟨(⟨0, 0, 0⟩ : Vec3 Int).add ⟨5, 0, 0⟩, (⟨1, 1, 0⟩ : Vec3 Int).add ⟨5, 0, 0⟩⟩ ∧
      instanceBounds (translationMatrix ⟨0, 0, 0⟩) ⟨⟨0, 0, 0⟩, ⟨1, 1, 0⟩⟩ =
        (⟨⟨0, 0, 0⟩, ⟨1, 1, 0⟩⟩ : Bounds3D Int) :=
  ⟨(instanceBounds_translation (translationMatrix ⟨5, 0, 0⟩) (translationMatrix ⟨0, 0, 0⟩)
      ⟨5, 0, 0⟩ ⟨⟨0, 0, 0⟩, ⟨1, 1, 0⟩⟩ (by decide)
      ⟨⟨rfl, rfl, rfl⟩, ⟨rfl, rfl, rfl⟩, ⟨rfl, rfl, rfl⟩, ⟨rfl, rfl, rfl⟩⟩
      ⟨⟨rfl, rfl, rfl⟩, ⟨rfl, rfl, rfl⟩, ⟨rfl, rfl, rfl⟩, ⟨rfl, rfl, rfl⟩⟩).1,
    (instanceBounds_translation (translationMatrix ⟨5, 0, 0⟩) (translationMatrix ⟨0, 0, 0⟩)
      ⟨5, 0, 0⟩ ⟨⟨0, 0, 0⟩, ⟨1, 1, 0⟩⟩ (by decide)
      ⟨⟨rfl, rfl, rfl⟩, ⟨rfl, rfl, rfl⟩, ⟨rfl, rfl, rfl⟩, ⟨rfl, rfl, rfl⟩⟩
      ⟨⟨rfl, rfl, rfl⟩, ⟨rfl, rfl, rfl⟩, ⟨rfl, rfl, rfl⟩, ⟨rfl, rfl, rfl⟩⟩).2.1⟩

end TranslationProofs

/-! ### Lists the mesh copy loop builds -/

section CollectedProofs

variable {α Material Light Translator : Type}

theorem getElem?_resize_of_lt {β : Type} (v : List β) (n : Nat) (d : β) (i : Nat)
    (hi : i < v.length) (hn : i < n) : (resize v n d)[i]? = v[i]? := by
  unfold resize
  rw [List.getElem?_append_left (by rw [List.length_take]; omega), List.getElem?_take,
    if_pos hn]

theorem length_collectedNormals (ms : List (Mesh α)) :
    (collectedNormals ms).length = (ms.map fun m => m.normalsUVY.length).sum := by
  induction ms with
  | nil => rfl
  | cons mesh rest ih => simp [collectedNormals, ih]

/-- The index triple the copy loop writes for entry `j` of the index array of mesh `m`. -/
theorem getElem?_collectedIndices (ms : List (Mesh α)) (verticesCnt : Int) (m : Nat)
    (mesh : Mesh α) (j : Nat) (t : Int) (hm : ms[m]? = some mesh)
    (hj : mesh.bvh.indices[j]? = some t) :
    (collectedIndices ms verticesCnt)[((ms.take m).map fun x => x.bvh.indices.length).sum + j]? =
      some
        { x := (t * 3 + 0) + (verticesCnt +
            (((ms.take m).map fun x => x.verticesUVX.length).sum : Nat))
          y := (t * 3 + 1) + (verticesCnt +
            (((ms.take m).map fun x => x.verticesUVX.length).sum : Nat))
          z := (t * 3 + 2) + (verticesCnt +
            (((ms.take m).map fun x => x.verticesUVX.length).sum : Nat)) } := by
  induction ms generalizing verticesCnt m with
  | nil => simp at hm
  | cons x rest ih =>
    cases m with
    | zero =>
      simp only [List.getElem?_cons_zero, Option.some.injEq] at hm
      subst hm
      have hlt : j < (meshIndices x.bvh.indices verticesCnt).length := by
        have := (List.getElem?_eq_some.mp hj).1
        simpa [meshIndices] using this
      rw [collectedIndices, List.take_zero, List.map_nil, List.sum_nil, Nat.zero_add,
        List.getElem?_append_left hlt]
      simp [meshIndices, hj]
    | succ m =>
      simp only [List.getElem?_cons_succ] at hm
      have hlen : (meshIndices x.bvh.indices verticesCnt).length = x.bvh.indices.length := by
        simp [meshIndices]
      have ih' := ih (verticesCnt + (x.verticesUVX.length : Int)) m hm
      rw [collectedIndices, List.take_succ_cons, List.map_cons, List.sum_cons, Nat.add_assoc,
        List.getElem?_append_right (by rw [hlen]; exact Nat.le_add_right _ _), hlen,
        Nat.add_sub_cancel_left, ih']
      simp only [List.map_cons, List.sum_cons, Nat.cast_add, add_assoc]

/-- Entry `i` of mesh `m` sits behind the entries of the meshes before it. -/
theorem getElem?_collectedVertices (ms : List (Mesh α)) (m : Nat) (mesh : Mesh α) (i : Nat)
    (hm : ms[m]? = some mesh) (hi : i < mesh.verticesUVX.length) :
    (collectedVertices ms)[((ms.take m).map fun x => x.verticesUVX.length).sum + i]? =
      mesh.verticesUVX[i]? := by
  induction ms generalizing m with
  | nil => simp at hm
  | cons x rest ih =>
    cases m with
    | zero =>
      simp only [List.getElem?_cons_zero, Option.some.injEq] at hm
      subst hm
      rw [collectedVertices, List.take_zero, List.map_nil, List.sum_nil, Nat.zero_add,
        List.getElem?_append_left hi]
    | succ m =>
      simp only [List.getElem?_cons_succ] at hm
      rw [collectedVertices, List.take_succ_cons, List.map_cons, List.sum_cons, Nat.add_assoc,
        List.getElem?_append_right (Nat.le_add_right _ _), Nat.add_sub_cancel_left, ih m hm]

theorem getElem?_collectedNormals (ms : List (Mesh α)) (m : Nat) (mesh : Mesh α) (i : Nat)
    (hm : ms[m]? = some mesh) (hi : i < mesh.normalsUVY.length) :
    (collectedNormals ms)[((ms.take m).map fun x => x.normalsUVY.length).sum + i]? =
      mesh.normalsUVY[i]? := by
  induction ms generalizing m with
  | nil => simp at hm
  | cons x rest ih =>
    cases m with
    | zero =>
      simp only [List.getElem?_cons_zero, Option.some.injEq] at hm
      subst hm
      rw [collectedNormals, List.take_zero, List.map_nil, List.sum_nil, Nat.zero_add,
        List.getElem?_append_left hi]
    | succ m =>
      simp only [List.getElem?_cons_succ] at hm
      rw [collectedNormals, List.take_succ_cons, List.map_cons, List.sum_cons, Nat.add_assoc,
        List.getElem?_append_right (Nat.le_add_right _ _), Nat.add_sub_cancel_left, ih m hm]

/-- The entries before mesh `m` and its own fit into the total. -/
theorem sum_take_add_le {β : Type} (f : β → Nat) (l : List β) (m : Nat) (x : β)
    (hm : l[m]? = some x) : ((l.take m).map f).sum + f x ≤ (l.map f).sum := by
  induction l generalizing m with
  | nil => simp at hm
  | cons y rest ih =>
    cases m with
    | zero =>
      simp only [List.getElem?_cons_zero, Option.some.injEq] at hm
      subst hm
      simp
    | succ m =>
      simp only [List.getElem?_cons_succ] at hm
      have := ih m hm
      simp only [List.take_succ_cons, List.map_cons, List.sum_cons]
      omega

/-- Decoding a packed natural number below the square of a width up to 4096 returns it. -/
theorem unpack_pack_natCast (n w : Nat) (hw : w ≤ 4096) (hn : n < w * w) :
    unpackIndex (packIndex (n : Int) (w : Int)) (w : Int) = (n : Int) := by
  unfold unpackIndex
  simp only [packIndex_shiftRight n w hw hn, packIndex_land n w hw hn]
  have h := Nat.mod_add_div n w
  have h2 : ((n % w : Nat) : Int) + ((n / w : Nat) : Int) * (w : Int) = (n : Int) := by
    rw [mul_comm]; exact_mod_cast h
  exact h2

/-- A texture whose `width * height * 3` leaves the range of `int` stops the texture copy,
whatever its texel buffer holds. -/
theorem copyTextures_overflow (name : String) (texData : List UInt8)
    (s : Scene α Material Light Translator) :
    copyTextures [⟨name, 40000, 20000, texData⟩] s = none := by
  simp [copyTextures, Texture.Copyable, FitsInt32]

end CollectedProofs

/-! ### What the packed buffers hold -/

section PackingProofs

variable {α Material Light Translator : Type} [LinearOrderedRing α]

theorem one_le_texWidthFor (n : Nat) : 1 ≤ texWidthFor n := by
  unfold texWidthFor
  have h : 1 ≤ Nat.sqrt n + 1 := Nat.le_add_left 1 _
  exact_mod_cast h

/-- C18: division safety of the index encoding. For every scene within defined behaviour,
also one without meshes or with meshes without triangles, the build returns with
`indicesTexWidth` and `triDataTexWidth` at least 1, and the encoding loop divides by that
`triDataTexWidth`, which is not zero. -/
theorem texWidths_at_least_one (env : Env α Translator)
    (s : Scene α Material Light Translator) (h : s.Ready) :
    ∃ s', CreateAccelerationStructures env s = some s' ∧
      1 ≤ s'.indicesTexWidth ∧ 1 ≤ s'.triDataTexWidth ∧ s'.triDataTexWidth ≠ 0 ∧
      s'.vertIndices =
        (resize (s.vertIndices ++ collectedIndices
            (s.meshes.map fun m => { m with bvh := env.BuildBVH m }) 0)
          (s'.indicesTexWidth * s'.indicesTexWidth).toNat ⟨0, 0, 0⟩).map
          (packIndices s'.triDataTexWidth) := by
  obtain ⟨s', hs', hwi, hwt, hvi, _⟩ := CreateAccelerationStructures_buffers env s h
  have h1 : 1 ≤ s'.indicesTexWidth := by rw [hwi]; exact one_le_texWidthFor _
  have h2 : 1 ≤ s'.triDataTexWidth := by rw [hwt]; exact one_le_texWidthFor _
  exact ⟨s', hs', h1, h2, by omega, hvi⟩

/-- Witness of C18: the scene without meshes. -/
theorem texWidths_at_least_one_witness :
    ∃ s', CreateAccelerationStructures demoEnv emptyScene = some s' ∧
      1 ≤ s'.indicesTexWidth ∧ 1 ≤ s'.triDataTexWidth ∧ s'.triDataTexWidth ≠ 0 ∧
      s'.vertIndices =
        (resize (emptyScene.vertIndices ++ collectedIndices
            (emptyScene.meshes.map fun m => { m with bvh := demoEnv.BuildBVH m }) 0)
          (s'.indicesTexWidth * s'.indicesTexWidth).toNat ⟨0, 0, 0⟩).map
          (packIndices s'.triDataTexWidth) :=
  texWidths_at_least_one demoEnv emptyScene (by decide)

theorem collectedTexels_eq_flatten (ts : List Texture) :
    collectedTexels ts =
      (ts.map fun t => t.texData.take (t.width * t.height * 3).toNat).flatten := by
  induction ts with
  | nil => rfl
  | cons t rest ih => simp [collectedTexels, ih]

theorem length_collectedTexels (ts : List Texture) (w h : Int)
    (hdim : ∀ t ∈ ts, t.width = w ∧ t.height = h)
    (hdata : ∀ t ∈ ts, t.Copyable) :
    (collectedTexels ts).length = ts.length * (w * h * 3).toNat := by
  induction ts with
  | nil => simp [collectedTexels]
  | cons t rest ih =>
    have ht := hdim t (List.mem_cons_self _ _)
    have hd := (hdata t (List.mem_cons_self _ _)).2.2.2.2
    have ih' := ih (fun u hu => hdim u (List.mem_cons_of_mem _ hu))
      (fun u hu => hdata u (List.mem_cons_of_mem _ hu))
    rw [ht.1, ht.2] at hd
    simp only [collectedTexels, List.length_append, List.length_take, List.length_cons, ih',
      ht.1, ht.2, Nat.min_eq_left hd.2]
    rw [Nat.add_mul, Nat.one_mul, Nat.add_comm]

theorem lastTexWidth_of_forall (ts : List Texture) (w : Int) (h : ∀ t ∈ ts, t.width = w) :
    lastTexWidth ts w = w := by
  induction ts with
  | nil => rfl
  | cons t rest ih =>
    rw [lastTexWidth, h t (List.mem_cons_self _ _)]
    exact ih (fun u hu => h u (List.mem_cons_of_mem _ hu))

theorem lastTexHeight_of_forall (ts : List Texture) (h0 : Int) (h : ∀ t ∈ ts, t.height = h0) :
    lastTexHeight ts h0 = h0 := by
  induction ts with
  | nil => rfl
  | cons t rest ih =>
    rw [lastTexHeight, h t (List.mem_cons_self _ _)]
    exact ih (fun u hu => h u (List.mem_cons_of_mem _ hu))

/-- C17: texture packing. For a build within defined behaviour (in particular every
`width * height * 3` fits an `int`) that starts with `textureMapsArray` empty over textures of
one common width and height, `textureMapsArray` afterwards is the concatenation, in list order, of the first `width * height * 3` texel bytes
of each texture, `texWidth` and `texHeight` are the width and height of every texture, and
`textureMapsArray.size() == textures.size() * texWidth * texHeight * 3`. -/
theorem CreateAccelerationStructures_textures (env : Env α Translator)
    (s : Scene α Material Light Translator) (h : s.Ready) (hempty : s.textureMapsArray = [])
    (hcommon : ∀ t ∈ s.textures, ∀ u ∈ s.textures, t.width = u.width ∧ t.height = u.height) :
    ∃ s', CreateAccelerationStructures env s = some s' ∧
      s'.textureMapsArray =
        (s.textures.map fun t => t.texData.take (t.width * t.height * 3).toNat).flatten ∧
      (∀ t ∈ s.textures, s'.texWidth = t.width ∧ s'.texHeight = t.height) ∧
      (s'.textureMapsArray.length : Int) =
        (s.textures.length : Int) * s'.texWidth * s'.texHeight * 3 := by
  obtain ⟨s', hs', _, _, _, _, _, htm, htw, hth⟩ :=
    CreateAccelerationStructures_buffers env s h
  rw [hempty, List.nil_append] at htm
  refine ⟨s', hs', by rw [htm, collectedTexels_eq_flatten], ?_⟩
  cases hts : s.textures with
  | nil =>
    rw [hts] at htm
    refine ⟨by simp, ?_⟩
    rw [htm]
    simp [collectedTexels]
  | cons x rest =>
    have hx : x ∈ s.textures := by rw [hts]; exact List.mem_cons_self _ _
    have hdim : ∀ t ∈ s.textures, t.width = x.width ∧ t.height = x.height :=
      fun t ht => hcommon t ht x hx
    have hrest : ∀ t ∈ rest, t ∈ s.textures := by
      intro t ht; rw [hts]; exact List.mem_cons_of_mem _ ht
    have hw : s'.texWidth = x.width := by
      rw [htw, hts, lastTexWidth]
      exact lastTexWidth_of_forall rest x.width (fun t ht => (hdim t (hrest t ht)).1)
    have hh : s'.texHeight = x.height := by
      rw [hth, hts, lastTexHeight]
      exact lastTexHeight_of_forall rest x.height (fun t ht => (hdim t (hrest t ht)).2)
    have hlen := length_collectedTexels s.textures x.width x.height hdim h.2.2
    have hnonneg : 0 ≤ x.width * x.height * 3 := (h.2.2 x hx).2.2.2.2.1
    refine ⟨?_, ?_⟩
    · intro t ht
      rw [← hts] at ht
      rw [hw, hh, (hdim t ht).1, (hdim t ht).2]
      exact ⟨rfl, rfl⟩
    · rw [← hts, htm, hlen, hw, hh]
      push_cast
      rw [Int.toNat_of_nonneg hnonneg]
      ring

/-- Witness of C17: the concrete scene with a second texture of the same size. -/
theorem CreateAccelerationStructures_textures_witness :
    ∃ s', CreateAccelerationStructures demoEnv
        { demoScene with
          textures := [⟨"white.png", 1, 1, [255, 255, 255]⟩, ⟨"red.png", 1, 1, [255, 0, 0, 9]⟩] }
        = some s' ∧
      s'.textureMapsArray = [255, 255, 255, 255, 0, 0] ∧
      (∀ t ∈ [(⟨"white.png", 1, 1, [255, 255, 255]⟩ : Texture),
          ⟨"red.png", 1, 1, [255, 0, 0, 9]⟩], s'.texWidth = t.width ∧ s'.texHeight = t.height) ∧
      (s'.textureMapsArray.length : Int) = 2 * s'.texWidth * s'.texHeight * 3 :=
  CreateAccelerationStructures_textures demoEnv
    { demoScene with
      textures := [⟨"white.png", 1, 1, [255, 255, 255]⟩, ⟨"red.png", 1, 1, [255, 0, 0, 9]⟩] }
    (by decide) rfl (by decide)

/-- C15: end-to-end vertex fetch. A first build from empty buffers over meshes that follow the
per-vertex data model and have fewer than `4096 * 4096` vertices in total returns, and for
every mesh `m`, every entry `j` of its permuted index array holding a triangle `t` with
`0 ≤ 3 * t + 2 < verticesUVX.size()` and every corner `c < 3`: component `c` of `vertIndices`
at position (index counts of the meshes before `m`) `+ j` decodes to a position where the
scene's `verticesUVX` holds `meshes[m].verticesUVX[3 * t + c]` and the scene's `normalsUVY`
holds `meshes[m].normalsUVY[3 * t + c]`. -/
theorem CreateAccelerationStructures_vertex_fetch (env : Env α Translator)
    (s : Scene α Material Light Translator) (h : s.Ready) (hper : s.PerVertex)
    (hempty : s.vertIndices = [] ∧ s.verticesUVX = [] ∧ s.normalsUVY = [])
    (htotal : (s.meshes.map fun x => x.verticesUVX.length).sum < 4096 * 4096)
    (m : Nat) (mesh : Mesh α) (hm : s.meshes[m]? = some mesh)
    (j : Nat) (t : Int) (hj : (env.BuildBVH mesh).indices[j]? = some t)
    (ht0 : 0 ≤ 3 * t + 2) (ht : 3 * t + 2 < (mesh.verticesUVX.length : Int))
    (c : Nat) (hc : c < 3) :
    ∃ s' entry, CreateAccelerationStructures env s = some s' ∧
      s'.vertIndices[((s.meshes.take m).map fun x => (env.BuildBVH x).indices.length).sum + j]? =
        some entry ∧
      0 ≤ unpackIndex (entry.component c) s'.triDataTexWidth ∧
      (3 * t + c).toNat < mesh.verticesUVX.length ∧
      (3 * t + c).toNat < mesh.normalsUVY.length ∧
      s'.verticesUVX[(unpackIndex (entry.component c) s'.triDataTexWidth).toNat]? =
        mesh.verticesUVX[(3 * t + c).toNat]? ∧
      s'.normalsUVY[(unpackIndex (entry.component c) s'.triDataTexWidth).toNat]? =
        mesh.normalsUVY[(3 * t + c).toNat]? := by
  obtain ⟨s', hs', hwi, hwt, hvi, hvx, hnx, _⟩ := CreateAccelerationStructures_buffers env s h
  rw [hempty.1, List.nil_append] at hwi hvi
  rw [hempty.2.1, List.nil_append] at hwt hvx
  rw [hempty.2.2, List.nil_append] at hnx
  obtain ⟨tn, rfl⟩ : ∃ tn : Nat, t = (tn : Int) := Int.eq_ofNat_of_zero_le (by omega)
  have htn : 3 * tn + 2 < mesh.verticesUVX.length := by exact_mod_cast ht
  -- the mesh list after `CreateBLAS` and the sums over the meshes before `m`
  have hgm : (s.meshes.map fun x => ({ x with bvh := env.BuildBVH x } : Mesh α))[m]? =
      some { mesh with bvh := env.BuildBVH mesh } := by
    rw [List.getElem?_map, hm]; rfl
  have hsI : (((s.meshes.map fun x => ({ x with bvh := env.BuildBVH x } : Mesh α)).take m).map
      fun x => x.bvh.indices.length).sum =
      ((s.meshes.take m).map fun x => (env.BuildBVH x).indices.length).sum := by
    rw [← List.map_take, List.map_map]; rfl
  have hsV : (((s.meshes.map fun x => ({ x with bvh := env.BuildBVH x } : Mesh α)).take m).map
      fun x => x.verticesUVX.length).sum =
      ((s.meshes.take m).map fun x => x.verticesUVX.length).sum := by
    rw [← List.map_take, List.map_map]; rfl
  have hsN : (((s.meshes.map fun x => ({ x with bvh := env.BuildBVH x } : Mesh α)).take m).map
      fun x => x.normalsUVY.length).sum =
      ((s.meshes.take m).map fun x => x.normalsUVY.length).sum := by
    rw [← List.map_take, List.map_map]; rfl
  have hlenV : (collectedVertices
      (s.meshes.map fun x => ({ x with bvh := env.BuildBVH x } : Mesh α))).length =
      (s.meshes.map fun x => x.verticesUVX.length).sum := by
    rw [length_collectedVertices, List.map_map]; rfl
  have hfit : ((s.meshes.take m).map fun x => x.verticesUVX.length).sum +
      mesh.verticesUVX.length ≤ (s.meshes.map fun x => x.verticesUVX.length).sum :=
    sum_take_add_le (fun x : Mesh α => x.verticesUVX.length) s.meshes m mesh hm
  -- the width
  have hsq : Nat.sqrt (s.meshes.map fun x => x.verticesUVX.length).sum < 4096 :=
    Nat.sqrt_lt'.mpr (by simpa using htotal)
  have hTW : (s.meshes.map fun x => x.verticesUVX.length).sum <
      (Nat.sqrt (s.meshes.map fun x => x.verticesUVX.length).sum + 1) *
        (Nat.sqrt (s.meshes.map fun x => x.verticesUVX.length).sum + 1) := by
    have := Nat.lt_succ_sqrt' (s.meshes.map fun x => x.verticesUVX.length).sum
    simpa [Nat.succ_eq_add_one, sq] using this
  have hW : s'.triDataTexWidth =
      ((Nat.sqrt (s.meshes.map fun x => x.verticesUVX.length).sum + 1 : Nat) : Int) := by
    rw [hwt, hlenV]; rfl
  have hWnat : (s'.triDataTexWidth * s'.triDataTexWidth).toNat =
      (Nat.sqrt (s.meshes.map fun x => x.verticesUVX.length).sum + 1) *
        (Nat.sqrt (s.meshes.map fun x => x.verticesUVX.length).sum + 1) := by
    rw [hW, ← Nat.cast_mul, Int.toNat_natCast]
  -- the entry of `vertIndices`
  have hI := getElem?_collectedIndices
    (s.meshes.map fun x => ({ x with bvh := env.BuildBVH x } : Mesh α)) 0 m _ j (tn : Int)
    hgm hj
  rw [hsI, hsV] at hI
  have hpos := (List.getElem?_eq_some.mp hI).1
  have hentry := getElem?_resize_of_lt _
    (s'.indicesTexWidth * s'.indicesTexWidth).toNat (⟨0, 0, 0⟩ : Indices) _ hpos
    (lt_trans hpos (by rw [hwi]; exact lt_texWidthFor_mul_self_toNat _))
  rw [hI] at hentry
  have hvi' := congrArg
    (fun l : List Indices =>
      l[((s.meshes.take m).map fun x => (env.BuildBVH x).indices.length).sum + j]?) hvi
  simp only [List.getElem?_map, hentry, Option.map_some'] at hvi'
  -- the flat index it decodes to
  have hcomp : ∀ k : Nat, k < 3 → k + ((s.meshes.take m).map fun x => x.verticesUVX.length).sum
      + 3 * tn < (s.meshes.map fun x => x.verticesUVX.length).sum := by
    intro k hk; omega
  have hdecode : unpackIndex
      ((packIndices s'.triDataTexWidth
        { x := ((tn : Int) * 3 + 0) +
            (0 + (((s.meshes.take m).map fun x => x.verticesUVX.length).sum : Nat))
          y := ((tn : Int) * 3 + 1) +
            (0 + (((s.meshes.take m).map fun x => x.verticesUVX.length).sum : Nat))
          z := ((tn : Int) * 3 + 2) +
            (0 + (((s.meshes.take m).map fun x => x.verticesUVX.length).sum : Nat)) }).component
        c) s'.triDataTexWidth =
      ((((s.meshes.take m).map fun x => x.verticesUVX.length).sum + (3 * tn + c) : Nat) :
        Int) := by
    have key : ∀ k : Nat, k < 3 →
        unpackIndex (packIndex (((tn : Int) * 3 + (k : Int)) +
          (0 + (((s.meshes.take m).map fun x => x.verticesUVX.length).sum : Nat)))
          s'.triDataTexWidth) s'.triDataTexWidth =
        ((((s.meshes.take m).map fun x => x.verticesUVX.length).sum + (3 * tn + k) : Nat) :
          Int) := by
      intro k hk
      have hcast : ((tn : Int) * 3 + (k : Int)) +
          (0 + (((s.meshes.take m).map fun x => x.verticesUVX.length).sum : Nat)) =
          ((((s.meshes.take m).map fun x => x.verticesUVX.length).sum + (3 * tn + k) : Nat) :
            Int) := by
        push_cast; ring
      rw [hcast, hW]
      exact unpack_pack_natCast _ _ (by omega)
        (lt_trans (by have := hcomp k hk; omega) hTW)
    rcases c with _ | _ | _ | c
    · exact key 0 (by omega)
    · exact key 1 (by omega)
    · exact key 2 (by omega)
    · omega
  have hflat : (3 * (tn : Int) + (c : Int)).toNat = 3 * tn + c := by
    rw [← Nat.cast_ofNat, ← Nat.cast_mul, ← Nat.cast_add, Int.toNat_natCast]
  have hvlt : ((s.meshes.take m).map fun x => x.verticesUVX.length).sum + (3 * tn + c) <
      (s.meshes.map fun x => x.verticesUVX.length).sum := by
    have := hcomp c hc; omega
  have hN := hper.2
  have hmeshN : mesh.normalsUVY.length = mesh.verticesUVX.length :=
    hN mesh (List.getElem?_mem hm)
  refine ⟨s', _, hs', hvi', ?_, ?_, ?_, ?_, ?_⟩
  · rw [hdecode]; exact Int.natCast_nonneg _
  · rw [hflat]; omega
  · rw [hflat]; omega
  · rw [hdecode, Int.toNat_natCast, hflat, hvx,
      getElem?_resize_of_lt _ _ _ _ (by rw [hlenV]; exact hvlt)
        (by rw [hWnat]; exact lt_trans hvlt hTW),
      ← hsV]
    exact getElem?_collectedVertices _ m { mesh with bvh := env.BuildBVH mesh } (3 * tn + c)
      hgm (by show 3 * tn + c < mesh.verticesUVX.length; omega)
  · have hsumN : ((s.meshes.take m).map fun x => x.normalsUVY.length).sum =
        ((s.meshes.take m).map fun x => x.verticesUVX.length).sum := by
      congr 1
      exact List.map_congr_left (fun x hx => hN x (List.mem_of_mem_take hx))
    have hlenN : (collectedNormals
        (s.meshes.map fun x => ({ x with bvh := env.BuildBVH x } : Mesh α))).length =
        (s.meshes.map fun x => x.verticesUVX.length).sum := by
      rw [length_collectedNormals, List.map_map]
      congr 1
      exact List.map_congr_left (fun x hx => hN x hx)
    rw [hdecode, Int.toNat_natCast, hflat, hnx,
      getElem?_resize_of_lt _ _ _ _ (by rw [hlenN]; exact hvlt)
        (by rw [hWnat]; exact lt_trans hvlt hTW),
      ← hsumN, ← hsN]
    exact getElem?_collectedNormals _ m { mesh with bvh := env.BuildBVH mesh } (3 * tn + c)
      hgm (by show 3 * tn + c < mesh.normalsUVY.length; omega)

/-- Witness of C15 on the concrete scene: entry 0 of the quad's index array holds
triangle 1, whose corner 2 is vertex 5 of the quad. -/
theorem CreateAccelerationStructures_vertex_fetch_witness :
    ∃ s' entry, CreateAccelerationStructures demoEnv demoScene = some s' ∧
      s'.vertIndices[0]? = some entry ∧
      s'.verticesUVX[(unpackIndex (entry.component 2) s'.triDataTexWidth).toNat]? =
        some ⟨0, 1, 0, 0⟩ ∧
      s'.normalsUVY[(unpackIndex (entry.component 2) s'.triDataTexWidth).toNat]? =
        some ⟨0, 0, 1, 1⟩ := by
  obtain ⟨s', entry, hs', he, _, _, _, hv, hn⟩ :=
    CreateAccelerationStructures_vertex_fetch demoEnv demoScene (by decide) (by decide)
      ⟨rfl, rfl, rfl⟩ (by decide) 0 (quadMesh "quad.obj") rfl 0 1 (by decide) (by decide)
      (by decide) 2 (by decide)
  exact ⟨s', entry, hs', he, hv, hn⟩

end PackingProofs

end GLSLPT
